import Mathlib

/-
Verification development for the LGR_2D_CFD repository: a 2D incompressible
Eulerian fluid solver (staggered MAC grid) with porous obstacles and a
radiator analyzer.

The Rust sources are shallowly embedded over exact rationals: every f64 is
modelled as a rational number, every ndarray `Array2<f64>` as a total
function `Nat -> Nat -> Rat`, and every imperative loop as a `List.foldl`
over the exact index list the loop visits, in the same order.  Square roots
and trigonometric values, which are irrational, are handled by passing the
computed value as an explicit parameter together with its defining equation
as a hypothesis (for `sqrt`), or by storing the precomputed cosine/sine of
an angle in the geometry record (the source precomputes `angle.cos()` and
`angle.sin()` before using them, and uses the angle itself nowhere else).
-/

/-- Pointwise update of a two-index field: the model of one `arr[[i, j]] = x`
assignment on an `Array2<f64>`. -/
def upd (f : ℕ → ℕ → ℚ) (i j : ℕ) (x : ℚ) : ℕ → ℕ → ℚ :=
  fun a b => if a = i ∧ b = j then x else f a b

/-- Writing a constant `k` at every position of a list of indices. -/
def writeK (g : ℕ → ℕ → ℚ) (ps : List (ℕ × ℕ)) (k : ℚ) : ℕ → ℕ → ℚ :=
  ps.foldl (fun g q => upd g q.1 q.2 k) g

/-- Field types for different physical quantities (`FieldType` in fluid.rs). -/
inductive FieldType where
  | U      -- horizontal velocity
  | V      -- vertical velocity
  | Smoke  -- scalar field (smoke/dye concentration)
deriving DecidableEq

/-- The fluid state (`struct Fluid` in fluid.rs).  `numX`/`numY` are the
stored dimensions (ghost layers already included, as after `Fluid::new`),
`h` the grid spacing, and each `Array2<f64>` is a total function on indices.
The temporary advection buffers `new_u`, `new_v`, `new_m` of the source are
not part of the state: they are local to the advection routines, which the
embedding reflects by computing the new field functionally and committing it
at the end. -/
structure Fluid where
  density : ℚ
  numX : ℕ
  numY : ℕ
  h : ℚ
  u : ℕ → ℕ → ℚ
  v : ℕ → ℕ → ℚ
  p : ℕ → ℕ → ℚ
  s : ℕ → ℕ → ℚ
  m : ℕ → ℕ → ℚ

/-- Clamp of the source expression `x.max(lo).min(hi)`. -/
def clampQ (lo hi x : ℚ) : ℚ := min (max x lo) hi

/-- One axis of the bilinear interpolation set-up in `Fluid::sample_field`:
from the scaled coordinate `c * h1` it produces the lower index
`x0 = min(floor(c * h1) as usize, n - 1)`, the upper index
`x1 = min(x0 + 1, n - 1)` and the fractional offset `t = c * h1 - x0`.
`Int.toNat` of the floor models the saturating `as usize` cast of Rust. -/
def axisInterp (n : ℕ) (h1 c : ℚ) : ℕ × ℕ × ℚ :=
  let r := c * h1
  let a0 := min (Int.toNat ⌊r⌋) (n - 1)
  let t := r - (a0 : ℚ)
  let a1 := min (a0 + 1) (n - 1)
  (a0, a1, t)

/-- Staggered-offset table of `Fluid::sample_field`: the x- and y-offset
subtracted from the clamped query point, and the backing field, for each
field kind. -/
def fieldOffsets (f : Fluid) (ft : FieldType) : ℚ × ℚ × (ℕ → ℕ → ℚ) :=
  let h2 := (1 : ℚ)/2 * f.h
  match ft with
  | FieldType.U => (0, h2, f.u)
  | FieldType.V => (h2, 0, f.v)
  | FieldType.Smoke => (h2, h2, f.m)

/-- Embedding of `Fluid::sample_field`: bilinear interpolation at an
arbitrary continuous coordinate, after clamping the query into
`[h, (num_x - 1) * h] x [h, (num_y - 1) * h]`.  The subtraction
`num_x as f64 - 1.0` of the source is real subtraction on the cast value,
which the embedding mirrors with `(f.numX : Q) - 1`.  The function is pure
by construction: it only reads the stored fields. -/
def sampleField (f : Fluid) (x y : ℚ) (ft : FieldType) : ℚ :=
  let h1 := 1 / f.h
  let xc := clampQ f.h (((f.numX : ℚ) - 1) * f.h) x
  let yc := clampQ f.h (((f.numY : ℚ) - 1) * f.h) y
  let o := fieldOffsets f ft
  let g := o.2.2
  let xIv := axisInterp f.numX h1 (xc - o.1)
  let yIv := axisInterp f.numY h1 (yc - o.2.1)
  let x0 := xIv.1
  let x1 := xIv.2.1
  let tx := xIv.2.2
  let y0 := yIv.1
  let y1 := yIv.2.1
  let ty := yIv.2.2
  let sx := 1 - tx
  let sy := 1 - ty
  sx * sy * g x0 y0 + tx * sy * g x1 y0 + tx * ty * g x1 y1 + sx * ty * g x0 y1

/-- Embedding of `Fluid::avg_u`: averaged horizontal velocity at the cell
center, with the source's special case at `j = 0`. -/
def avgU (f : Fluid) (i j : ℕ) : ℚ :=
  if j = 0 then f.u i j
  else (f.u i (j-1) + f.u i j + f.u (i+1) (j-1) + f.u (i+1) j) * (1/4)

/-- Embedding of `Fluid::avg_v`: averaged vertical velocity at the cell
center, with the source's special case at `i = 0`. -/
def avgV (f : Fluid) (i j : ℕ) : ℚ :=
  if i = 0 then f.v i j
  else (f.v (i-1) j + f.v i j + f.v (i-1) (j+1) + f.v i (j+1)) * (1/4)

/-- Index pairs visited by a double loop `for i in lo..lo+nI { for j in
lo..lo+nJ }`, in the source's row-major visiting order. -/
def pairRange (iStart nI jStart nJ : ℕ) : List (ℕ × ℕ) :=
  (List.range' iStart nI).flatMap fun i => (List.range' jStart nJ).map fun j => (i, j)

/-- Embedding of `Fluid::integrate` (gravity): `v[[i, j]] += gravity * dt`
for `1 <= i < num_x`, `1 <= j < num_y - 1` whenever the cell and the cell
below are both open. -/
def integrate (f : Fluid) (dt gravity : ℚ) : Fluid :=
  let v' := (pairRange 1 (f.numX - 1) 1 (f.numY - 2)).foldl
    (fun g c => if f.s c.1 c.2 ≠ 0 ∧ f.s c.1 (c.2 - 1) ≠ 0
                then upd g c.1 c.2 (g c.1 c.2 + gravity * dt) else g) f.v
  { f with v := v' }

/-- The interior cells visited by one Gauss-Seidel sweep of
`Fluid::solve_incompressibility`: `1 <= i < num_x - 1`, `1 <= j < num_y - 1`,
row-major. -/
def interiorCells (f : Fluid) : List (ℕ × ℕ) :=
  pairRange 1 (f.numX - 2) 1 (f.numY - 2)

/-- One visit of the Gauss-Seidel sweep of `Fluid::solve_incompressibility`
at cell `c = (i, j)`.  The state is the fluid together with the running
`max_change` accumulator.  `cp = density * h / dt` and `omega` is the
over-relaxation factor.  The skip branches (`s[[i,j]] == 0` and zero
neighbor-openness sum) leave the state untouched and perform no division;
otherwise the divergence is read from the current, partially updated
velocity field and the correction is applied in the source's write order. -/
def visitCell (cp omega : ℚ) (st : Fluid × ℚ) (c : ℕ × ℕ) : Fluid × ℚ :=
  let f := st.1
  let i := c.1
  let j := c.2
  if f.s i j = 0 then st
  else
    let sx0 := f.s (i-1) j
    let sx1 := f.s (i+1) j
    let sy0 := f.s i (j-1)
    let sy1 := f.s i (j+1)
    let sSum := sx0 + sx1 + sy0 + sy1
    if sSum = 0 then st
    else
      let div := f.u (i+1) j - f.u i j + f.v i (j+1) - f.v i j
      let pCorr := (-div / sSum) * omega
      let pChange := cp * pCorr
      let f1 := { f with p := upd f.p i j (f.p i j + pChange) }
      let f2 := { f1 with u := upd f1.u i j (f1.u i j - sx0 * pCorr) }
      let f3 := { f2 with u := upd f2.u (i+1) j (f2.u (i+1) j + sx1 * pCorr) }
      let f4 := { f3 with v := upd f3.v i j (f3.v i j - sy0 * pCorr) }
      let f5 := { f4 with v := upd f4.v i (j+1) (f4.v i (j+1) + sy1 * pCorr) }
      (f5, max st.2 |pChange|)

/-- One full Gauss-Seidel sweep over all interior cells, returning the new
state and the largest pressure change seen in the sweep. -/
def sweep (cp omega : ℚ) (f : Fluid) : Fluid × ℚ :=
  (interiorCells f).foldl (visitCell cp omega) (f, 0)

/-- The iteration loop of `Fluid::solve_incompressibility`: run up to
`remaining` more sweeps, where `iter` is the current iteration index, and
stop early once `iter > 3` and the largest pressure change of the sweep
drops below the convergence threshold `1e-6`. -/
def solveLoop (cp omega : ℚ) : ℕ → ℕ → Fluid → Fluid
  | 0, _, f => f
  | remaining + 1, iter, f =>
    let r := sweep cp omega f
    if iter > 3 ∧ r.2 < 1/1000000 then r.1
    else solveLoop cp omega remaining (iter + 1) r.1

/-- Embedding of `Fluid::solve_incompressibility`. -/
def solveIncompressibility (f : Fluid) (numIters : ℕ) (dt overRelaxation : ℚ) : Fluid :=
  solveLoop (f.density * f.h / dt) overRelaxation numIters 0 f

/-- Embedding of `Fluid::extrapolate`.  The source's single horizontal loop
writes `u` and `v` entries that never interact, so it is split into one fold
per component over the same index list; the reads inside each fold are from
the evolving component, exactly as in the source. -/
def extrapolate (f : Fluid) : Fluid :=
  let uA := (List.range f.numX).foldl
    (fun g i =>
      let g1 := upd g i 0 (g i 1)
      upd g1 i (f.numY - 1) (g1 i (f.numY - 2))) f.u
  let vA := (List.range f.numX).foldl
    (fun g i => upd (upd g i 0 0) i (f.numY - 1) 0) f.v
  let uB := (List.range f.numY).foldl
    (fun g j =>
      let g1 := if g 0 j = 0 then upd g 0 j (g 1 j) else g
      upd g1 (f.numX - 1) j (g1 (f.numX - 2) j)) uA
  let vB := (List.range f.numY).foldl
    (fun g j =>
      let g1 := upd g 0 j (g 1 j)
      upd g1 (f.numX - 1) j (g1 (f.numX - 2) j)) vA
  { f with u := uB, v := vB }

/-- Validity guard for advecting the `u` component at face `(i, j)` in
`Fluid::advect_velocity`: both adjoining cells open and not at the extreme
`j` boundary. -/
def advectCondU (f : Fluid) (c : ℕ × ℕ) : Prop :=
  f.s c.1 c.2 ≠ 0 ∧ f.s (c.1 - 1) c.2 ≠ 0 ∧ c.2 < f.numY - 1

instance (f : Fluid) (c : ℕ × ℕ) : Decidable (advectCondU f c) := by
  unfold advectCondU; infer_instance

/-- Validity guard for advecting the `v` component at face `(i, j)`. -/
def advectCondV (f : Fluid) (c : ℕ × ℕ) : Prop :=
  f.s c.1 c.2 ≠ 0 ∧ c.2 > 0 ∧ f.s c.1 (c.2 - 1) ≠ 0 ∧ c.1 < f.numX - 1

instance (f : Fluid) (c : ℕ × ℕ) : Decidable (advectCondV f c) := by
  unfold advectCondV; infer_instance

/-- The backward-traced sample committed for the `u` face `(i, j)`:
the face sits at `(i * h, j * h + h/2)`, is traced back along
`(u[[i, j]], avg_v(i, j))` for `dt`, and the pre-advection `u` field is
sampled there. -/
def advectValU (f : Fluid) (dt : ℚ) (c : ℕ × ℕ) : ℚ :=
  sampleField f ((c.1 : ℚ) * f.h - dt * f.u c.1 c.2)
    ((c.2 : ℚ) * f.h + (1:ℚ)/2 * f.h - dt * avgV f c.1 c.2) FieldType.U

/-- The backward-traced sample committed for the `v` face `(i, j)`. -/
def advectValV (f : Fluid) (dt : ℚ) (c : ℕ × ℕ) : ℚ :=
  sampleField f ((c.1 : ℚ) * f.h + (1:ℚ)/2 * f.h - dt * avgU f c.1 c.2)
    ((c.2 : ℚ) * f.h - dt * f.v c.1 c.2) FieldType.V

/-- Embedding of `Fluid::advect_velocity`.  The source writes results into
the scratch buffers `new_u`/`new_v` (initialized to copies of `u`/`v`) while
sampling only the untouched `u`/`v`, then commits both buffers after the
sweep; since the two buffers never interact, the sweep is one fold per
component over the visited faces `1 <= i < num_x`, `1 <= j < num_y`, with
every read taken from the pre-advection state `f`. -/
def advectVelocity (f : Fluid) (dt : ℚ) : Fluid :=
  let faces := pairRange 1 (f.numX - 1) 1 (f.numY - 1)
  let u' := faces.foldl
    (fun g c => if advectCondU f c then upd g c.1 c.2 (advectValU f dt c) else g) f.u
  let v' := faces.foldl
    (fun g c => if advectCondV f c then upd g c.1 c.2 (advectValV f dt c) else g) f.v
  { f with u := u', v := v' }

/-- Embedding of `Fluid::advect_smoke`: semi-Lagrangian transport of the
dye field using the cell-centered average of the four surrounding velocity
faces, over interior cells, committed after the sweep. -/
def advectSmoke (f : Fluid) (dt : ℚ) : Fluid :=
  let cells := pairRange 1 (f.numX - 2) 1 (f.numY - 2)
  let m' := cells.foldl
    (fun g c =>
      if f.s c.1 c.2 ≠ 0 then
        upd g c.1 c.2 (sampleField f
          ((c.1 : ℚ) * f.h + (1:ℚ)/2 * f.h - dt * ((f.u c.1 c.2 + f.u (c.1+1) c.2) * (1/2)))
          ((c.2 : ℚ) * f.h + (1:ℚ)/2 * f.h - dt * ((f.v c.1 c.2 + f.v c.1 (c.2+1)) * (1/2)))
          FieldType.Smoke)
      else g) f.m
  { f with m := m' }

/-- Embedding of `Fluid::enforce_boundary_conditions`: inflow on the left
two columns for `1 <= j < num_y - 1`, no-slip zeros on the bottom and top
rows for all columns, then the zero-gradient copy onto the right column for
all rows.  As in the other loop embeddings, the `u` and `v` writes of one
source loop never interact and are split into per-component folds run in
the source's loop order. -/
def enforceBoundaryConditions (f : Fluid) (inflowVelocity : ℚ) : Fluid :=
  let u1 := (List.range' 1 (f.numY - 2)).foldl
    (fun g j => upd (upd g 0 j inflowVelocity) 1 j inflowVelocity) f.u
  let u2 := (List.range f.numX).foldl
    (fun g i => upd (upd g i 0 0) i (f.numY - 1) 0) u1
  let v2 := (List.range f.numX).foldl
    (fun g i => upd (upd g i 0 0) i (f.numY - 1) 0) f.v
  let u3 := (List.range f.numY).foldl
    (fun g j => upd g (f.numX - 1) j (g (f.numX - 2) j)) u2
  let v3 := (List.range f.numY).foldl
    (fun g j => upd g (f.numX - 1) j (g (f.numX - 2) j)) v2
  { f with u := u3, v := v3 }

/-- Embedding of `Fluid::simulate_with_boundaries`: gravity integration,
pressure reset, incompressibility solve, extrapolation, velocity advection,
smoke advection, and a final boundary-condition enforcement, in this order. -/
def simulateWithBoundaries (f : Fluid) (dt gravity : ℚ) (numIters : ℕ)
    (overRelaxation inflowVelocity : ℚ) : Fluid :=
  let f1 := integrate f dt gravity
  let f2 := { f1 with p := fun _ _ => 0 }
  let f3 := solveIncompressibility f2 numIters dt overRelaxation
  let f4 := extrapolate f3
  let f5 := advectVelocity f4 dt
  let f6 := advectSmoke f5 dt
  enforceBoundaryConditions f6 inflowVelocity

/-- Radiator geometry and properties (`struct Radiator` in radiator.rs).
The source stores the rotation `angle: f64` and always uses it through the
precomputed values `angle.cos()` and `angle.sin()`; since those are
irrational for almost all angles, the embedding stores the precomputed pair
`(cosA, sinA)` directly. -/
structure Radiator where
  x : ℚ
  y : ℚ
  width : ℚ
  height : ℚ
  cosA : ℚ
  sinA : ℚ
  porosity : ℚ
  resistance : ℚ

/-- The viscous (Darcy) coefficient `alpha = 1.0 / permeability.max(1e-10)`
with `permeability = porosity / resistance`.  Rust f64 division by zero
yields infinity: for `resistance == 0` and nonzero porosity the source
computes `permeability = inf`, `max` keeps it, and `1.0 / inf = 0.0`; the
conditional reproduces exactly that.  (For `porosity == 0` the source gets
`0/0 = NaN`, `NaN.max(1e-10) = 1e-10` and `alpha = 1e10`, which the rational
`0 / resistance = 0` branch also reproduces.) -/
def radiatorAlpha (rad : Radiator) : ℚ :=
  if rad.resistance = 0 ∧ rad.porosity ≠ 0 then 0
  else 1 / max (rad.porosity / rad.resistance) (1/10^10)

/-- The inertial (Forchheimer) coefficient from the Ergun relation:
`beta = (1 - porosity) / porosity^3 * 1.75`. -/
def radiatorBeta (rad : Radiator) : ℚ :=
  (1 - rad.porosity) / rad.porosity^3 * (7/4)

/-- The multiplicative damping factor `1 / (1 + total_resistance * h)`
computed by `RadiatorAnalyzer::apply_porous_medium_resistance`, where
`total_resistance = alpha * mu_air + beta * density * |v|` with
`mu_air = 1.8e-5` and `mag` standing for the local velocity magnitude. -/
def radiatorDamping (rad : Radiator) (density h mag : ℚ) : ℚ :=
  let viscousResistance := radiatorAlpha rad * (18/1000000)
  let inertialResistance := radiatorBeta rad * density * mag
  let totalResistance := viscousResistance + inertialResistance
  1 / (1 + totalResistance * h)

/-- Embedding of `RadiatorAnalyzer::apply_porous_medium_resistance` at cell
`(i, j)`.  The parameter `mag` stands for the source's
`(u*u + v*v).sqrt()`, which is irrational in general; theorems about this
function carry `0 <= mag` and `mag^2 = u[[i,j]]^2 + v[[i,j]]^2` as
hypotheses.  Below the `1e-6` threshold the cell is skipped entirely;
otherwise `u` and `v` at the cell are scaled by the damping factor and the
openness is set to the radiator's porosity. -/
def applyPorousMediumResistance (f : Fluid) (i j : ℕ) (rad : Radiator) (mag : ℚ) : Fluid :=
  if mag < 1/1000000 then f
  else
    let damping := radiatorDamping rad f.density f.h mag
    let f1 := { f with u := upd f.u i j (f.u i j * damping) }
    let f2 := { f1 with v := upd f1.v i j (f1.v i j * damping) }
    { f2 with s := upd f2.s i j rad.porosity }

/-- Embedding of `RadiatorAnalyzer::sample_pressure_at_point`: bilinear
interpolation of the pressure field at grid coordinates `x / h`, `y / h`
clamped into `[0, num_x - 1] x [0, num_y - 1]` — note that unlike
`Fluid::sample_field` it applies no half-cell staggering offset.  The
`(fluid.num_x - 1) as f64` of the source is a usize subtraction before the
cast, mirrored by the natural subtraction inside the cast. -/
def samplePressureAtPoint (f : Fluid) (x y : ℚ) : ℚ :=
  let gridX := clampQ 0 ((f.numX - 1 : ℕ) : ℚ) (x / f.h)
  let gridY := clampQ 0 ((f.numY - 1 : ℕ) : ℚ) (y / f.h)
  let i0 := Int.toNat ⌊gridX⌋
  let j0 := Int.toNat ⌊gridY⌋
  let i1 := min (i0 + 1) (f.numX - 1)
  let j1 := min (j0 + 1) (f.numY - 1)
  let tx := gridX - (i0 : ℚ)
  let ty := gridY - (j0 : ℚ)
  (1 - tx) * (1 - ty) * f.p i0 j0 +
  tx * (1 - ty) * f.p i1 j0 +
  tx * ty * f.p i1 j1 +
  (1 - tx) * ty * f.p i0 j1

/-- The signed mass-flow contribution of sample `i` (of 20) in
`RadiatorAnalyzer::calculate_mass_flow`: the sample point on the radiator
face is traced in the rotated frame, velocity is sampled there, projected
onto the face normal, and weighted by the per-sample area times `h` times
density; a sample outside the physical domain contributes nothing. -/
def massFlowContribution (f : Fluid) (rad : Radiator) (i : ℕ) : ℚ :=
  let samples : ℕ := 20
  let areaPerSample := rad.height / (samples : ℚ)
  let t := ((i : ℚ) + 1/2) / (samples : ℚ) - 1/2
  let sampleYLocal := t * rad.height
  let faceX := rad.x - sampleYLocal * rad.sinA
  let faceY := rad.y + sampleYLocal * rad.cosA
  if faceX < 0 ∨ faceX ≥ (f.numX : ℚ) * f.h ∨ faceY < 0 ∨ faceY ≥ (f.numY : ℚ) * f.h
  then 0
  else
    let u := sampleField f faceX faceY FieldType.U
    let v := sampleField f faceX faceY FieldType.V
    let normalVelocity := u * rad.cosA + v * rad.sinA
    normalVelocity * areaPerSample * f.h * f.density

/-- Embedding of `RadiatorAnalyzer::calculate_mass_flow`: the signed
contributions of the 20 face samples are accumulated and the absolute value
of the total is returned. -/
def calculateMassFlow (f : Fluid) (rad : Radiator) : ℚ :=
  |(List.range 20).foldl (fun acc i => acc + massFlowContribution f rad i) 0|

/-- Modelled from the spec: the mass-flow aggregation as section 4.6 words
it — "project onto the face normal, multiply by per-sample area
(`height/N * h`) and density, sum magnitudes".  This sums the magnitude of
every per-sample contribution, for comparison with `calculateMassFlow`,
which the source computes as the magnitude of the signed sum instead. -/
def specMassFlowSumOfMagnitudes (f : Fluid) (rad : Radiator) : ℚ :=
  (List.range 20).foldl (fun acc i => acc + |massFlowContribution f rad i|) 0

/-- Obstacle shapes (`ObstacleShape` in obstacle.rs).  The airfoil variant
is omitted here because its containment test involves `sqrt(x_norm)`, which
is irrational; the obstacle-application theorems below are proved for an
arbitrary containment predicate, which subsumes every shape including the
airfoil, and the concrete shapes are only needed for explicit instances. -/
inductive ObstacleShape where
  | circle (radius : ℚ)
  | cylinder (radius : ℚ)
  | rectangle (width height : ℚ)
deriving DecidableEq

/-- An obstacle (`struct Obstacle` in obstacle.rs), with the rotation
stored as the precomputed cosine/sine pair, as in `Radiator`. -/
structure Obstacle where
  x : ℚ
  y : ℚ
  cosA : ℚ
  sinA : ℚ
  shape : ObstacleShape
  isPorous : Bool
  porosity : ℚ
  resistance : ℚ

/-- Embedding of `Obstacle::contains_point`: transform the point into the
obstacle's local rotated frame and test the shape-specific containment. -/
def containsPoint (ob : Obstacle) (px py : ℚ) : Bool :=
  let dx := px - ob.x
  let dy := py - ob.y
  let localX := dx * ob.cosA + dy * ob.sinA
  let localY := -dx * ob.sinA + dy * ob.cosA
  match ob.shape with
  | ObstacleShape.circle radius => decide (localX * localX + localY * localY ≤ radius * radius)
  | ObstacleShape.cylinder radius => decide (localX * localX + localY * localY ≤ radius * radius)
  | ObstacleShape.rectangle width height => decide (|localX| ≤ width * (1/2) ∧ |localY| ≤ height * (1/2))

/-- The fluid arrays handed to `ObstacleManager::apply_to_fluid`
(`fluid_s`, `fluid_u`, `fluid_v`, `fluid_m`). -/
structure Arrays where
  s : ℕ → ℕ → ℚ
  u : ℕ → ℕ → ℚ
  v : ℕ → ℕ → ℚ
  m : ℕ → ℕ → ℚ

/-- Cells visited by the first (marking) pass of
`ObstacleManager::apply_single_obstacle`: `1 <= i < num_x - 2`,
`1 <= j < num_y - 2`. -/
def markCells (numX numY : ℕ) : List (ℕ × ℕ) :=
  pairRange 1 (numX - 3) 1 (numY - 3)

/-- Faces visited by the second (no-slip) pass:
`1 <= i < num_x - 1`, `1 <= j < num_y - 1`. -/
def slipFaces (numX numY : ℕ) : List (ℕ × ℕ) :=
  pairRange 1 (numX - 2) 1 (numY - 2)

/-- Whether the cell center `((i + 0.5) h, (j + 0.5) h)` lies inside the
obstacle, for an arbitrary containment predicate `inside`. -/
def cellMarked (inside : ℚ → ℚ → Bool) (h : ℚ) (c : ℕ × ℕ) : Prop :=
  inside (((c.1 : ℚ) + 1/2) * h) (((c.2 : ℚ) + 1/2) * h) = true

instance (inside : ℚ → ℚ → Bool) (h : ℚ) (c : ℕ × ℕ) :
    Decidable (cellMarked inside h c) := by
  unfold cellMarked; infer_instance

/-- No-slip condition for the `u` face at `(i, j)` in the second pass:
either adjacent cell fully solid, or the face point `(i h, (j + 0.5) h)`
itself inside the obstacle. -/
def noSlipCondU (inside : ℚ → ℚ → Bool) (s : ℕ → ℕ → ℚ) (numX : ℕ) (h : ℚ)
    (c : ℕ × ℕ) : Prop :=
  (0 < c.1 ∧ s (c.1 - 1) c.2 = 0) ∨ (c.1 < numX - 1 ∧ s c.1 c.2 = 0) ∨
    inside ((c.1 : ℚ) * h) (((c.2 : ℚ) + 1/2) * h) = true

instance (inside : ℚ → ℚ → Bool) (s : ℕ → ℕ → ℚ) (numX : ℕ) (h : ℚ) (c : ℕ × ℕ) :
    Decidable (noSlipCondU inside s numX h c) := by
  unfold noSlipCondU; infer_instance

/-- No-slip condition for the `v` face at `(i, j)` in the second pass. -/
def noSlipCondV (inside : ℚ → ℚ → Bool) (s : ℕ → ℕ → ℚ) (numY : ℕ) (h : ℚ)
    (c : ℕ × ℕ) : Prop :=
  (0 < c.2 ∧ s c.1 (c.2 - 1) = 0) ∨ (c.2 < numY - 1 ∧ s c.1 c.2 = 0) ∨
    inside (((c.1 : ℚ) + 1/2) * h) ((c.2 : ℚ) * h) = true

instance (inside : ℚ → ℚ → Bool) (s : ℕ → ℕ → ℚ) (numY : ℕ) (h : ℚ) (c : ℕ × ℕ) :
    Decidable (noSlipCondV inside s numY h c) := by
  unfold noSlipCondV; infer_instance

/-- The two passes of `ObstacleManager::apply_single_obstacle`, for an
arbitrary containment predicate `inside` (the source always passes
`obstacle.contains_point`; keeping it abstract covers every shape).  First
pass: porous obstacles set the openness of each marked cell to the porosity
and scale the four adjoining velocity faces by it; solid obstacles zero the
openness and the dye.  Second pass: any `u`/`v` face adjoining a cell of
zero openness, or itself inside the obstacle, is zeroed.  Within each
source loop the writes to distinct components never interact, so each
component is one fold over the same index list in the source's order. -/
def applyPasses (inside : ℚ → ℚ → Bool) (isPorous : Bool) (porosity : ℚ)
    (A : Arrays) (numX numY : ℕ) (h : ℚ) : Arrays :=
  let cells := markCells numX numY
  let A1 :=
    if isPorous then
      let s1 := cells.foldl
        (fun g c => if cellMarked inside h c then upd g c.1 c.2 porosity else g) A.s
      let u1 := cells.foldl
        (fun g c => if cellMarked inside h c then
            let ga := upd g c.1 c.2 (g c.1 c.2 * porosity)
            upd ga (c.1 + 1) c.2 (ga (c.1 + 1) c.2 * porosity)
          else g) A.u
      let v1 := cells.foldl
        (fun g c => if cellMarked inside h c then
            let ga := upd g c.1 c.2 (g c.1 c.2 * porosity)
            upd ga c.1 (c.2 + 1) (ga c.1 (c.2 + 1) * porosity)
          else g) A.v
      { A with s := s1, u := u1, v := v1 }
    else
      let s1 := cells.foldl
        (fun g c => if cellMarked inside h c then upd g c.1 c.2 0 else g) A.s
      let m1 := cells.foldl
        (fun g c => if cellMarked inside h c then upd g c.1 c.2 0 else g) A.m
      { A with s := s1, m := m1 }
  let faces := slipFaces numX numY
  let u2 := faces.foldl
    (fun g c => if noSlipCondU inside A1.s numX h c then upd g c.1 c.2 0 else g) A1.u
  let v2 := faces.foldl
    (fun g c => if noSlipCondV inside A1.s numY h c then upd g c.1 c.2 0 else g) A1.v
  { A1 with u := u2, v := v2 }

/-- Embedding of `ObstacleManager::apply_single_obstacle` for a concrete
obstacle. -/
def applySingleObstacle (ob : Obstacle) (A : Arrays) (numX numY : ℕ) (h : ℚ) : Arrays :=
  applyPasses (containsPoint ob) ob.isPorous ob.porosity A numX numY h

/-- Embedding of `ObstacleManager::apply_to_fluid`: apply every obstacle of
the manager in order. -/
def applyToFluid (obstacles : List Obstacle) (A : Arrays) (numX numY : ℕ) (h : ℚ) : Arrays :=
  obstacles.foldl (fun acc ob => applySingleObstacle ob acc numX numY h) A

/-- The neighbor-openness sum `s[i-1,j] + s[i+1,j] + s[i,j-1] + s[i,j+1]`
read by one Gauss-Seidel visit at `(i, j)`. -/
def sSum (f : Fluid) (i j : ℕ) : ℚ :=
  f.s (i-1) j + f.s (i+1) j + f.s i (j-1) + f.s i (j+1)

/-- The divergence `u[i+1,j] - u[i,j] + v[i,j+1] - v[i,j]` read by one
Gauss-Seidel visit at `(i, j)` from the current state. -/
def divergence (f : Fluid) (i j : ℕ) : ℚ :=
  f.u (i+1) j - f.u i j + f.v i (j+1) - f.v i j

/-- The signed total that `RadiatorAnalyzer::calculate_mass_flow`
accumulates before taking the absolute value. -/
def massFlowSignedTotal (f : Fluid) (rad : Radiator) : ℚ :=
  (List.range 20).foldl (fun acc i => acc + massFlowContribution f rad i) 0

/-- A concrete 4x4 fluid state exercising one Gauss-Seidel visit. -/
def exFluidC1 : Fluid :=
  { density := 1, numX := 4, numY := 4, h := 1,
    u := fun a b => if a = 2 ∧ b = 1 then 1 else 0,
    v := fun _ _ => 0, p := fun _ _ => 0, s := fun _ _ => 1, m := fun _ _ => 0 }

/-- A concrete 4x4 fluid state with distinguishable entries in every field,
used for the sampling-exactness claim. -/
def exFluidC2 : Fluid :=
  { density := 1, numX := 4, numY := 4, h := 1,
    u := fun a b => ((10 * a + b : ℕ) : ℚ),
    v := fun a b => ((a + 20 * b : ℕ) : ℚ),
    p := fun a b => if a = 1 ∧ b = 1 then 1 else 0,
    s := fun _ _ => 1,
    m := fun a b => ((a * b + 7 : ℕ) : ℚ) }

/-- A concrete 4x4 fluid state for the sampling-safety claim. -/
def exFluidC3 : Fluid :=
  { density := 1, numX := 4, numY := 4, h := 1,
    u := fun a b => ((a + b : ℕ) : ℚ),
    v := fun a b => ((2 * a + b : ℕ) : ℚ),
    p := fun _ _ => 0, s := fun _ _ => 1,
    m := fun a b => ((a + 3 * b : ℕ) : ℚ) }

/-- A concrete 5x5 arrays instance (uniform open, unit velocities, no dye)
for the porosity-one obstacle claim. -/
def exArrC4 : Arrays :=
  { s := fun _ _ => 1, u := fun _ _ => 1, v := fun _ _ => 1, m := fun _ _ => 0 }

/-- A porous axis-aligned rectangle of porosity one covering cell `(1, 1)`
of a 5x5 grid with unit spacing. -/
def exObC4 : Obstacle :=
  { x := 3/2, y := 3/2, cosA := 1, sinA := 0,
    shape := ObstacleShape.rectangle (6/5) (6/5),
    isPorous := true, porosity := 1, resistance := 0 }

/-- A concrete 5x5 arrays instance carrying dye, for the full-blockage
claim. -/
def exArrC5 : Arrays :=
  { s := fun _ _ => 1, u := fun _ _ => 1, v := fun _ _ => 1, m := fun _ _ => 1 }

/-- A porous rectangle of porosity zero (same geometry as `exObC4`). -/
def exObC5porous : Obstacle :=
  { x := 3/2, y := 3/2, cosA := 1, sinA := 0,
    shape := ObstacleShape.rectangle (6/5) (6/5),
    isPorous := true, porosity := 0, resistance := 0 }

/-- The non-porous solid obstacle with the same geometry as
`exObC5porous`. -/
def exObC5solid : Obstacle :=
  { x := 3/2, y := 3/2, cosA := 1, sinA := 0,
    shape := ObstacleShape.rectangle (6/5) (6/5),
    isPorous := false, porosity := 0, resistance := 0 }

/-- A concrete 4x4 fluid state whose cell `(2, 2)` carries the velocity
`(3/1000, 4/1000)`, of rational magnitude `5/1000`. -/
def exFluidC6 : Fluid :=
  { density := 1, numX := 4, numY := 4, h := 1,
    u := fun a b => if a = 2 ∧ b = 2 then 3/1000 else 0,
    v := fun a b => if a = 2 ∧ b = 2 then 4/1000 else 0,
    p := fun _ _ => 0, s := fun _ _ => 1, m := fun _ _ => 0 }

/-- A radiator with porosity one half and positive resistance. -/
def exRadC6 : Radiator :=
  { x := 1, y := 1, width := 1, height := 1, cosA := 1, sinA := 0,
    porosity := 1/2, resistance := 3 }

/-- A 5x5 wind-tunnel-like state: top and bottom rows solid, and the
boundary-layer suction value `0.1` stored on the vertical faces one row
above the bottom wall, exactly as `Scene::setup_wind_tunnel` writes it. -/
def exFluidC7 : Fluid :=
  { density := 1, numX := 5, numY := 5, h := 1,
    u := fun _ _ => 0,
    v := fun _ b => if b = 1 then 1/10 else 0,
    p := fun _ _ => 0,
    s := fun _ b => if b = 0 ∨ b = 4 then 0 else 1,
    m := fun _ _ => 0 }

/-- A concrete 4x4 fluid state whose vertical velocity changes sign across
the domain, for the mass-flow claim. -/
def exFluidC9 : Fluid :=
  { density := 1, numX := 4, numY := 4, h := 1,
    u := fun _ _ => 0,
    v := fun a _ => if a < 2 then 1 else -1,
    p := fun _ _ => 0, s := fun _ _ => 1, m := fun _ _ => 0 }

/-- A radiator rotated ninety degrees (cosine zero, sine one) whose face
samples sweep across the domain of `exFluidC9`; sixteen of its twenty
samples fall outside the domain and are skipped. -/
def exRadC9 : Radiator :=
  { x := 1/2, y := 2, width := 1, height := 20, cosA := 0, sinA := 1,
    porosity := 1, resistance := 0 }

/-- A concrete 4x4 fluid state whose cell `(1, 1)` carries the velocity
`(3/100, -4/100)`, of rational magnitude `5/100`. -/
def exFluidC10 : Fluid :=
  { density := 1, numX := 4, numY := 4, h := 1,
    u := fun a b => if a = 1 ∧ b = 1 then 3/100 else 0,
    v := fun a b => if a = 1 ∧ b = 1 then -4/100 else 0,
    p := fun _ _ => 0, s := fun _ _ => 1, m := fun _ _ => 0 }

/-- A radiator with zero resistance, exercising the infinite-permeability
branch where the viscous coefficient vanishes. -/
def exRadC10 : Radiator :=
  { x := 1, y := 1, width := 1, height := 1, cosA := 1, sinA := 0,
    porosity := 9/10, resistance := 0 }

/-! Helper lemmas about the loop embeddings. -/

theorem upd_same (f : ℕ → ℕ → ℚ) (i j : ℕ) (x : ℚ) : upd f i j x i j = x := by
  simp [upd]

theorem upd_ne (f : ℕ → ℕ → ℚ) (i j a b : ℕ) (x : ℚ) (h : ¬(a = i ∧ b = j)) :
    upd f i j x a b = f a b := by
  simp [upd, h]

theorem upd_self (f : ℕ → ℕ → ℚ) (i j : ℕ) : upd f i j (f i j) = f := by
  funext a b
  by_cases h : a = i ∧ b = j
  · obtain ⟨rfl, rfl⟩ := h
    simp [upd]
  · simp [upd, h]

/-- Replacing the step function of a fold by a pointwise-equal one. -/
theorem foldl_congr_fun {β : Type} (s₁ s₂ : (ℕ → ℕ → ℚ) → β → (ℕ → ℕ → ℚ))
    (l : List β) (g : ℕ → ℕ → ℚ) (h : ∀ x c, s₁ x c = s₂ x c) :
    l.foldl s₁ g = l.foldl s₂ g := by
  induction l generalizing g with
  | nil => rfl
  | cons c t ih => simp only [List.foldl_cons, h, ih]

/-- A fold whose steps do nothing leaves the field unchanged. -/
theorem foldl_id {β : Type} (l : List β) (g : ℕ → ℕ → ℚ) :
    l.foldl (fun x _ => x) g = g := by
  induction l with
  | nil => rfl
  | cons c t ih => simp only [List.foldl_cons, ih]

/-- Characterization of a loop that, at each visited index `c` satisfying a
guard `P`, overwrites position `c` of the field with a value `val c` that
depends only on `c` (not on the evolving field): the result at `(a, b)` is
`val (a, b)` when `(a, b)` was visited with the guard true, and the original
entry otherwise. -/
theorem foldl_guard_upd (P : ℕ × ℕ → Prop) [DecidablePred P] (val : ℕ × ℕ → ℚ)
    (l : List (ℕ × ℕ)) (g0 : ℕ → ℕ → ℚ) (a b : ℕ) :
    (l.foldl (fun g c => if P c then upd g c.1 c.2 (val c) else g) g0) a b
      = if (a, b) ∈ l ∧ P (a, b) then val (a, b) else g0 a b := by
  induction l generalizing g0 with
  | nil => simp
  | cons c t ih =>
    simp only [List.foldl_cons, ih, List.mem_cons]
    by_cases hmem : (a, b) ∈ t ∧ P (a, b)
    · simp [hmem]
    · by_cases hc : c = (a, b)
      · subst hc
        by_cases hp : P (a, b)
        · simp [hmem, hp, upd_same]
        · simp [hmem, hp]
      · have hne : ¬(a = c.1 ∧ b = c.2) := by
          intro ⟨h1, h2⟩
          exact hc (by cases c; simp_all)
        have hcsym : ¬((a, b) = c) := fun h => hc h.symm
        by_cases hp : P c
        · simp [hmem, hp, upd_ne _ _ _ _ _ _ hne, hcsym]
        · simp [hmem, hp, hcsym]

theorem writeK_apply (g : ℕ → ℕ → ℚ) (ps : List (ℕ × ℕ)) (k : ℚ) (a b : ℕ) :
    writeK g ps k a b = if (a, b) ∈ ps then k else g a b := by
  induction ps generalizing g with
  | nil => simp [writeK]
  | cons q t ih =>
    simp only [writeK, List.foldl_cons, List.mem_cons]
    rw [show (t.foldl (fun g q => upd g q.1 q.2 k) (upd g q.1 q.2 k)) = writeK (upd g q.1 q.2 k) t k from rfl, ih]
    by_cases hmem : (a, b) ∈ t
    · simp [hmem]
    · by_cases hq : (a, b) = q
      · subst hq
        simp [hmem, upd_same]
      · have hne : ¬(a = q.1 ∧ b = q.2) := by
          intro ⟨h1, h2⟩
          exact hq (by cases q; simp_all)
        simp [hmem, hq, upd_ne _ _ _ _ _ _ hne]

/-- Characterization of a loop that, at each visited index `c` satisfying a
guard `P`, writes the constant `k` at every position in `touched c`. -/
theorem foldl_guard_writeK (P : ℕ × ℕ → Prop) [DecidablePred P]
    (touched : ℕ × ℕ → List (ℕ × ℕ)) (k : ℚ)
    (l : List (ℕ × ℕ)) (g0 : ℕ → ℕ → ℚ) (a b : ℕ) :
    (l.foldl (fun g c => if P c then writeK g (touched c) k else g) g0) a b
      = if ∃ c ∈ l, P c ∧ (a, b) ∈ touched c then k else g0 a b := by
  induction l generalizing g0 with
  | nil => simp
  | cons c t ih =>
    simp only [List.foldl_cons, ih, List.mem_cons]
    by_cases hmem : ∃ c' ∈ t, P c' ∧ (a, b) ∈ touched c'
    · obtain ⟨c', hc', hp', ht'⟩ := hmem
      have h1 : ∃ c' ∈ t, P c' ∧ (a, b) ∈ touched c' := ⟨c', hc', hp', ht'⟩
      have h2 : ∃ x, (x = c ∨ x ∈ t) ∧ P x ∧ (a, b) ∈ touched x :=
        ⟨c', Or.inr hc', hp', ht'⟩
      simp [h1, h2]
    · by_cases hp : P c
      · by_cases htc : (a, b) ∈ touched c
        · have h2 : ∃ x, (x = c ∨ x ∈ t) ∧ P x ∧ (a, b) ∈ touched x :=
            ⟨c, Or.inl rfl, hp, htc⟩
          simp [hmem, h2, hp, writeK_apply, htc]
        · have h2 : ¬∃ x, (x = c ∨ x ∈ t) ∧ P x ∧ (a, b) ∈ touched x := by
            rintro ⟨x, hx | hx, hpx, htx⟩
            · exact htc (hx ▸ htx)
            · exact hmem ⟨x, hx, hpx, htx⟩
          simp [hmem, h2, hp, writeK_apply, htc]
      · have h2 : ¬∃ x, (x = c ∨ x ∈ t) ∧ P x ∧ (a, b) ∈ touched x := by
          rintro ⟨x, hx | hx, hpx, htx⟩
          · exact hp (hx ▸ hpx)
          · exact hmem ⟨x, hx, hpx, htx⟩
        simp [hmem, h2, hp]


theorem mem_pairRange (iStart nI jStart nJ a b : ℕ) :
    (a, b) ∈ pairRange iStart nI jStart nJ ↔
      (iStart ≤ a ∧ a < iStart + nI) ∧ (jStart ≤ b ∧ b < jStart + nJ) := by
  simp only [pairRange, List.mem_flatMap, List.mem_map, List.mem_range'_1]
  constructor
  · rintro ⟨i, hi, j, hj, hab⟩
    obtain ⟨rfl, rfl⟩ := Prod.mk.injEq .. ▸ hab
    exact ⟨hi, hj⟩
  · rintro ⟨ha, hb⟩
    exact ⟨a, ha, b, hb, rfl⟩


/-- C1: during one Gauss-Seidel sweep of `solve_incompressibility`, the
visit of an interior cell `(i, j)` is skipped, leaving the whole state
unchanged and performing no division, when the cell is closed or its
neighbor-openness sum is zero; otherwise, with the divergence read from the
current partially updated state and `c = omega * (-div / sSum)`, it adds
`(density * h / dt) * c` to `p[i,j]`, subtracts `s[i-1,j] * c` from
`u[i,j]`, adds `s[i+1,j] * c` to `u[i+1,j]`, subtracts `s[i,j-1] * c` from
`v[i,j]`, adds `s[i,j+1] * c` to `v[i,j+1]`, and modifies nothing else. -/
theorem gauss_seidel_visit_correct (f : Fluid) (mc dt omega : ℚ) (i j : ℕ)
    (_hi1 : 1 ≤ i) (_hi2 : i ≤ f.numX - 2) (_hj1 : 1 ≤ j) (_hj2 : j ≤ f.numY - 2) :
    ((f.s i j = 0 ∨ sSum f i j = 0) →
      visitCell (f.density * f.h / dt) omega (f, mc) (i, j) = (f, mc))
    ∧ (f.s i j ≠ 0 → sSum f i j ≠ 0 →
      (visitCell (f.density * f.h / dt) omega (f, mc) (i, j)).1.p i j
          = f.p i j + (f.density * f.h / dt) * (omega * (-(divergence f i j) / sSum f i j))
      ∧ (visitCell (f.density * f.h / dt) omega (f, mc) (i, j)).1.u i j
          = f.u i j - f.s (i-1) j * (omega * (-(divergence f i j) / sSum f i j))
      ∧ (visitCell (f.density * f.h / dt) omega (f, mc) (i, j)).1.u (i+1) j
          = f.u (i+1) j + f.s (i+1) j * (omega * (-(divergence f i j) / sSum f i j))
      ∧ (visitCell (f.density * f.h / dt) omega (f, mc) (i, j)).1.v i j
          = f.v i j - f.s i (j-1) * (omega * (-(divergence f i j) / sSum f i j))
      ∧ (visitCell (f.density * f.h / dt) omega (f, mc) (i, j)).1.v i (j+1)
          = f.v i (j+1) + f.s i (j+1) * (omega * (-(divergence f i j) / sSum f i j))
      ∧ (∀ a b, ¬(a = i ∧ b = j) →
          (visitCell (f.density * f.h / dt) omega (f, mc) (i, j)).1.p a b = f.p a b)
      ∧ (∀ a b, ¬(a = i ∧ b = j) → ¬(a = i + 1 ∧ b = j) →
          (visitCell (f.density * f.h / dt) omega (f, mc) (i, j)).1.u a b = f.u a b)
      ∧ (∀ a b, ¬(a = i ∧ b = j) → ¬(a = i ∧ b = j + 1) →
          (visitCell (f.density * f.h / dt) omega (f, mc) (i, j)).1.v a b = f.v a b)
      ∧ (visitCell (f.density * f.h / dt) omega (f, mc) (i, j)).1.s = f.s
      ∧ (visitCell (f.density * f.h / dt) omega (f, mc) (i, j)).1.m = f.m) := by
  constructor
  · intro h
    by_cases hs : f.s i j = 0
    · simp [visitCell, hs]
    · have hsum : f.s (i-1) j + f.s (i+1) j + f.s i (j-1) + f.s i (j+1) = 0 := by
        rcases h with h | h
        · exact absurd h hs
        · simpa [sSum] using h
      simp [visitCell, hs, hsum]
  · intro h1 h2
    have h2' : ¬(f.s (i-1) j + f.s (i+1) j + f.s i (j-1) + f.s i (j+1) = 0) := by
      simpa [sSum] using h2
    have hba : ¬(i + 1 = i ∧ j = j) := by omega
    have hab : ¬(i = i + 1 ∧ j = j) := by omega
    have hvb : ¬(i = i ∧ j + 1 = j) := by omega
    have hva : ¬(i = i ∧ j = j + 1) := by omega
    refine ⟨?_, ?_, ?_, ?_, ?_, ?_, ?_, ?_, ?_, ?_⟩ <;>
      simp only [visitCell, if_neg h1, if_neg h2', sSum, divergence] <;>
      try intros
    · rw [upd_same]; ring
    · rw [upd_ne _ _ _ _ _ _ hab, upd_same]; ring
    · rw [upd_same, upd_ne _ _ _ _ _ _ hba]; ring
    · rw [upd_ne _ _ _ _ _ _ hva, upd_same]; ring
    · rw [upd_same, upd_ne _ _ _ _ _ _ hvb]; ring
    all_goals simp_all [upd_ne]

/-- Witness for C1: the visit of interior cell `(1, 1)` of `exFluidC1`
(open cell, neighbor sum 4) accumulates the predicted pressure change. -/
theorem gauss_seidel_visit_correct_witness :
    (1 ≤ (1:ℕ)) ∧ ((1:ℕ) ≤ exFluidC1.numX - 2) ∧ exFluidC1.s 1 1 ≠ 0 ∧ sSum exFluidC1 1 1 ≠ 0 ∧
    (visitCell (exFluidC1.density * exFluidC1.h / (1/2)) (19/10) (exFluidC1, 0) (1, 1)).1.p 1 1
      = exFluidC1.p 1 1 + (exFluidC1.density * exFluidC1.h / (1/2)) *
          ((19/10) * (-(divergence exFluidC1 1 1) / sSum exFluidC1 1 1)) := by
  refine ⟨by norm_num, by norm_num [exFluidC1], by norm_num [exFluidC1],
    by norm_num [exFluidC1, sSum], ?_⟩
  exact ((gauss_seidel_visit_correct exFluidC1 0 (1/2) (19/10) 1 1 (by norm_num)
    (by norm_num [exFluidC1]) (by norm_num) (by norm_num [exFluidC1])).2
    (by norm_num [exFluidC1]) (by norm_num [exFluidC1, sSum])).1

theorem clampQ_eq_self (lo hi x : ℚ) (h1 : lo ≤ x) (h2 : x ≤ hi) : clampQ lo hi x = x := by
  simp [clampQ, max_eq_left h1, min_eq_left h2]

theorem clampQ_mem (lo hi x : ℚ) (h : lo ≤ hi) :
    lo ≤ clampQ lo hi x ∧ clampQ lo hi x ≤ hi :=
  ⟨le_min (le_trans (le_max_right x lo) (le_refl _)) h, min_le_right _ _⟩

theorem clampQ_idem (lo hi x : ℚ) (h : lo ≤ hi) :
    clampQ lo hi (clampQ lo hi x) = clampQ lo hi x :=
  clampQ_eq_self _ _ _ (clampQ_mem lo hi x h).1 (clampQ_mem lo hi x h).2

theorem axisInterp_lt (n : ℕ) (h1 c : ℚ) (hn : 1 ≤ n) :
    (axisInterp n h1 c).1 < n ∧ (axisInterp n h1 c).2.1 < n := by
  unfold axisInterp
  constructor
  · exact Nat.lt_of_le_of_lt (Nat.min_le_right _ _) (by omega)
  · exact Nat.lt_of_le_of_lt (Nat.min_le_right _ _) (by omega)

theorem axisInterp_exact (n i : ℕ) (h : ℚ) (hh : 0 < h) (hin : i + 1 ≤ n) :
    axisInterp n (1/h) ((i : ℚ) * h) = (i, min (i+1) (n-1), 0) := by
  have hr : (i : ℚ) * h * (1/h) = (i : ℚ) := by field_simp
  have hfl : Int.toNat ⌊(i : ℚ)⌋ = i := by
    rw [Int.floor_natCast, Int.toNat_natCast]
  have hmin : min i (n - 1) = i := Nat.min_eq_left (by omega)
  simp only [axisInterp, hr, hfl, hmin]
  simp

theorem sampleField_at_node (f : Fluid) (ft : FieldType) (i j : ℕ) (hh : 0 < f.h)
    (hxlo : f.h ≤ (i:ℚ) * f.h + (fieldOffsets f ft).1)
    (hxhi : (i:ℚ) * f.h + (fieldOffsets f ft).1 ≤ ((f.numX : ℚ) - 1) * f.h)
    (hylo : f.h ≤ (j:ℚ) * f.h + (fieldOffsets f ft).2.1)
    (hyhi : (j:ℚ) * f.h + (fieldOffsets f ft).2.1 ≤ ((f.numY : ℚ) - 1) * f.h)
    (hiX : i + 1 ≤ f.numX) (hjY : j + 1 ≤ f.numY) :
    sampleField f ((i:ℚ) * f.h + (fieldOffsets f ft).1)
      ((j:ℚ) * f.h + (fieldOffsets f ft).2.1) ft = (fieldOffsets f ft).2.2 i j := by
  have hx : (i:ℚ) * f.h + (fieldOffsets f ft).1 - (fieldOffsets f ft).1 = (i:ℚ) * f.h := by ring
  have hy : (j:ℚ) * f.h + (fieldOffsets f ft).2.1 - (fieldOffsets f ft).2.1 = (j:ℚ) * f.h := by
    ring
  simp only [sampleField, clampQ_eq_self _ _ _ hxlo hxhi, clampQ_eq_self _ _ _ hylo hyhi,
    hx, hy, axisInterp_exact _ _ _ hh hiX, axisInterp_exact _ _ _ hh hjY]
  ring

/-- C2 (amended): `sample_field` is a pure function of the stored state and
the query, and queried exactly at a node's own staggered location it
reproduces the stored value for the `u`, `v` and dye fields; the pressure
sampler `sample_pressure_at_point` applies no half-cell offset, so it
reproduces the stored pressure when queried at the grid coordinates
`(i * h, j * h)` (not at the cell center, where it returns a four-cell
average; see the counterexample). -/
theorem sampling_exactness_at_nodes (f : Fluid) (hh : 0 < f.h) :
    (∀ i j : ℕ, 1 ≤ i → i + 1 ≤ f.numX → 1 ≤ j → j + 2 ≤ f.numY →
      sampleField f ((i:ℚ) * f.h) ((j:ℚ) * f.h + (1:ℚ)/2 * f.h) FieldType.U = f.u i j)
  ∧ (∀ i j : ℕ, 1 ≤ i → i + 2 ≤ f.numX → 1 ≤ j → j + 1 ≤ f.numY →
      sampleField f ((i:ℚ) * f.h + (1:ℚ)/2 * f.h) ((j:ℚ) * f.h) FieldType.V = f.v i j)
  ∧ (∀ i j : ℕ, 1 ≤ i → i + 2 ≤ f.numX → 1 ≤ j → j + 2 ≤ f.numY →
      sampleField f ((i:ℚ) * f.h + (1:ℚ)/2 * f.h) ((j:ℚ) * f.h + (1:ℚ)/2 * f.h)
        FieldType.Smoke = f.m i j)
  ∧ (∀ i j : ℕ, i + 1 ≤ f.numX → j + 1 ≤ f.numY →
      samplePressureAtPoint f ((i:ℚ) * f.h) ((j:ℚ) * f.h) = f.p i j) := by
  refine ⟨?_, ?_, ?_, ?_⟩
  · intro i j hi1 hi2 hj1 hj2
    have hi1' : (1:ℚ) ≤ (i:ℚ) := by exact_mod_cast hi1
    have hi2' : (i:ℚ) + 1 ≤ (f.numX:ℚ) := by exact_mod_cast hi2
    have hj1' : (1:ℚ) ≤ (j:ℚ) := by exact_mod_cast hj1
    have hj2' : (j:ℚ) + 2 ≤ (f.numY:ℚ) := by exact_mod_cast hj2
    have := sampleField_at_node f FieldType.U i j hh
      (by simp [fieldOffsets]; nlinarith)
      (by simp [fieldOffsets]; nlinarith)
      (by simp [fieldOffsets]; nlinarith)
      (by simp [fieldOffsets]; nlinarith)
      (by omega) (by omega)
    simpa [fieldOffsets] using this
  · intro i j hi1 hi2 hj1 hj2
    have hi1' : (1:ℚ) ≤ (i:ℚ) := by exact_mod_cast hi1
    have hi2' : (i:ℚ) + 2 ≤ (f.numX:ℚ) := by exact_mod_cast hi2
    have hj1' : (1:ℚ) ≤ (j:ℚ) := by exact_mod_cast hj1
    have hj2' : (j:ℚ) + 1 ≤ (f.numY:ℚ) := by exact_mod_cast hj2
    have := sampleField_at_node f FieldType.V i j hh
      (by simp [fieldOffsets]; nlinarith)
      (by simp [fieldOffsets]; nlinarith)
      (by simp [fieldOffsets]; nlinarith)
      (by simp [fieldOffsets]; nlinarith)
      (by omega) (by omega)
    simpa [fieldOffsets] using this
  · intro i j hi1 hi2 hj1 hj2
    have hi1' : (1:ℚ) ≤ (i:ℚ) := by exact_mod_cast hi1
    have hi2' : (i:ℚ) + 2 ≤ (f.numX:ℚ) := by exact_mod_cast hi2
    have hj1' : (1:ℚ) ≤ (j:ℚ) := by exact_mod_cast hj1
    have hj2' : (j:ℚ) + 2 ≤ (f.numY:ℚ) := by exact_mod_cast hj2
    have := sampleField_at_node f FieldType.Smoke i j hh
      (by simp [fieldOffsets]; nlinarith)
      (by simp [fieldOffsets]; nlinarith)
      (by simp [fieldOffsets]; nlinarith)
      (by simp [fieldOffsets]; nlinarith)
      (by omega) (by omega)
    simpa [fieldOffsets] using this
  · intro i j hi hj
    have hgx : (i:ℚ) * f.h / f.h = (i:ℚ) := by field_simp
    have hgy : (j:ℚ) * f.h / f.h = (j:ℚ) := by field_simp
    have hiub : (i:ℚ) ≤ ((f.numX - 1 : ℕ) : ℚ) := by
      have : i ≤ f.numX - 1 := by omega
      exact_mod_cast this
    have hjub : (j:ℚ) ≤ ((f.numY - 1 : ℕ) : ℚ) := by
      have : j ≤ f.numY - 1 := by omega
      exact_mod_cast this
    have hfl : Int.toNat ⌊(i : ℚ)⌋ = i := by rw [Int.floor_natCast, Int.toNat_natCast]
    have hfl' : Int.toNat ⌊(j : ℚ)⌋ = j := by rw [Int.floor_natCast, Int.toNat_natCast]
    simp only [samplePressureAtPoint, hgx, hgy,
      clampQ_eq_self _ _ _ (Nat.cast_nonneg i) hiub,
      clampQ_eq_self _ _ _ (Nat.cast_nonneg j) hjub, hfl, hfl']
    ring

/-- Counterexample for C2 as stated: pressure is cell-centered (the data
model places pressure node `(1, 1)` at the physical point
`((1 + 1/2) h, (1 + 1/2) h)`), but `sample_pressure_at_point` applies no
half-cell offset, so sampling at that node's own location returns the
four-cell average `1/4` instead of the stored value `1`. -/
theorem sampling_exactness_pressure_counterexample :
    samplePressureAtPoint exFluidC2 (((1:ℚ) + 1/2) * exFluidC2.h)
      (((1:ℚ) + 1/2) * exFluidC2.h) ≠ exFluidC2.p 1 1 := by
  norm_num [samplePressureAtPoint, exFluidC2, clampQ, min_def, max_def]

/-- Witness for C2 (amended), at node `(1, 1)` of the concrete state
`exFluidC2` for all four field kinds. -/
theorem sampling_exactness_at_nodes_witness :
    0 < exFluidC2.h
    ∧ sampleField exFluidC2 ((1:ℚ) * exFluidC2.h)
        ((1:ℚ) * exFluidC2.h + (1:ℚ)/2 * exFluidC2.h) FieldType.U = exFluidC2.u 1 1
    ∧ sampleField exFluidC2 ((1:ℚ) * exFluidC2.h + (1:ℚ)/2 * exFluidC2.h)
        ((1:ℚ) * exFluidC2.h) FieldType.V = exFluidC2.v 1 1
    ∧ sampleField exFluidC2 ((1:ℚ) * exFluidC2.h + (1:ℚ)/2 * exFluidC2.h)
        ((1:ℚ) * exFluidC2.h + (1:ℚ)/2 * exFluidC2.h) FieldType.Smoke = exFluidC2.m 1 1
    ∧ samplePressureAtPoint exFluidC2 ((1:ℚ) * exFluidC2.h) ((1:ℚ) * exFluidC2.h)
        = exFluidC2.p 1 1 := by
  have hh : 0 < exFluidC2.h := by norm_num [exFluidC2]
  have h := sampling_exactness_at_nodes exFluidC2 hh
  have h1 := h.1 1 1 (by norm_num) (by norm_num [exFluidC2]) (by norm_num)
    (by norm_num [exFluidC2])
  have h2 := h.2.1 1 1 (by norm_num) (by norm_num [exFluidC2]) (by norm_num)
    (by norm_num [exFluidC2])
  have h3 := h.2.2.1 1 1 (by norm_num) (by norm_num [exFluidC2]) (by norm_num)
    (by norm_num [exFluidC2])
  have h4 := h.2.2.2 1 1 (by norm_num [exFluidC2]) (by norm_num [exFluidC2])
  exact ⟨hh, by exact_mod_cast h1, by exact_mod_cast h2, by exact_mod_cast h3,
    by exact_mod_cast h4⟩

/-- C3: for every rational input coordinate, `sample_field` clamps the
query into `[h, (num_x - 1) h] x [h, (num_y - 1) h]`, every interpolation
index it then forms (both axes, both the lower and upper index) lies
strictly inside the allocated `num_x` by `num_y` storage, and an
out-of-domain query returns the same value as the query at the clamped
boundary coordinates.  Totality (sampling never fails) is manifest: the
embedding is a total function. -/
theorem sample_field_clamped_safe (f : Fluid) (hh : 0 < f.h)
    (hx : 2 ≤ f.numX) (hy : 2 ≤ f.numY) :
    (∀ c : ℚ, (axisInterp f.numX (1/f.h) c).1 < f.numX
      ∧ (axisInterp f.numX (1/f.h) c).2.1 < f.numX)
  ∧ (∀ c : ℚ, (axisInterp f.numY (1/f.h) c).1 < f.numY
      ∧ (axisInterp f.numY (1/f.h) c).2.1 < f.numY)
  ∧ (∀ (x y : ℚ) (ft : FieldType), sampleField f x y ft
      = sampleField f (clampQ f.h (((f.numX:ℚ) - 1) * f.h) x)
          (clampQ f.h (((f.numY:ℚ) - 1) * f.h) y) ft) := by
  have hxq : (2:ℚ) ≤ (f.numX:ℚ) := by exact_mod_cast hx
  have hyq : (2:ℚ) ≤ (f.numY:ℚ) := by exact_mod_cast hy
  have hlohiX : f.h ≤ ((f.numX:ℚ) - 1) * f.h := by nlinarith
  have hlohiY : f.h ≤ ((f.numY:ℚ) - 1) * f.h := by nlinarith
  refine ⟨fun c => axisInterp_lt f.numX (1/f.h) c (by omega),
    fun c => axisInterp_lt f.numY (1/f.h) c (by omega), fun x y ft => ?_⟩
  simp only [sampleField, clampQ_idem _ _ _ hlohiX, clampQ_idem _ _ _ hlohiY]

/-- Witness for C3: on the concrete state `exFluidC3`, the interpolation
indices at the scaled coordinate `-7` stay in bounds, and the out-of-domain
query `(99, -5)` returns the boundary-clamped sample. -/
theorem sample_field_clamped_safe_witness :
    0 < exFluidC3.h ∧ 2 ≤ exFluidC3.numX
    ∧ (axisInterp exFluidC3.numX (1/exFluidC3.h) (-7)).1 < exFluidC3.numX
    ∧ (axisInterp exFluidC3.numX (1/exFluidC3.h) (-7)).2.1 < exFluidC3.numX
    ∧ sampleField exFluidC3 99 (-5) FieldType.Smoke
        = sampleField exFluidC3 (clampQ exFluidC3.h (((exFluidC3.numX:ℚ) - 1) * exFluidC3.h) 99)
            (clampQ exFluidC3.h (((exFluidC3.numY:ℚ) - 1) * exFluidC3.h) (-5)) FieldType.Smoke := by
  have hh : 0 < exFluidC3.h := by norm_num [exFluidC3]
  have hx : 2 ≤ exFluidC3.numX := by norm_num [exFluidC3]
  have hy : 2 ≤ exFluidC3.numY := by norm_num [exFluidC3]
  have h := sample_field_clamped_safe exFluidC3 hh hx hy
  exact ⟨hh, hx, (h.1 (-7)).1, (h.1 (-7)).2, h.2.2 99 (-5) FieldType.Smoke⟩


theorem applyPorousMediumResistance_skip (f : Fluid) (i j : ℕ) (rad : Radiator) (mag : ℚ)
    (h : mag < 1/1000000) : applyPorousMediumResistance f i j rad mag = f := by
  unfold applyPorousMediumResistance
  rw [if_pos h]

/-- C6: for a radiator-occupied cell `(i, j)`, with `mag` the local
velocity magnitude (`mag >= 0` and `mag^2 = u^2 + v^2`) and positive
resistance: below the `1e-6` threshold the application changes nothing;
otherwise `u` and `v` at the cell are multiplied by exactly
`1 / (1 + (alpha * 1.8e-5 + beta * density * mag) * h)` with
`alpha = 1 / max(porosity / resistance, 1e-10)` and
`beta = 1.75 (1 - porosity) / porosity^3`, the openness at the cell is set
to the radiator's porosity, and no other cell or field is modified. -/
theorem radiator_resistance_cell_correct (f : Fluid) (i j : ℕ) (rad : Radiator) (mag : ℚ)
    (_hmag0 : 0 ≤ mag) (_hmagsq : mag^2 = (f.u i j)^2 + (f.v i j)^2)
    (hres : 0 < rad.resistance) :
    (mag < 1/1000000 → applyPorousMediumResistance f i j rad mag = f)
    ∧ (¬ mag < 1/1000000 →
      (applyPorousMediumResistance f i j rad mag).u i j
          = f.u i j * (1 / (1 + ((1 / max (rad.porosity / rad.resistance) (1/10^10)) * (18/1000000)
              + (7/4) * (1 - rad.porosity) / rad.porosity^3 * f.density * mag) * f.h))
      ∧ (applyPorousMediumResistance f i j rad mag).v i j
          = f.v i j * (1 / (1 + ((1 / max (rad.porosity / rad.resistance) (1/10^10)) * (18/1000000)
              + (7/4) * (1 - rad.porosity) / rad.porosity^3 * f.density * mag) * f.h))
      ∧ (applyPorousMediumResistance f i j rad mag).s i j = rad.porosity
      ∧ (∀ a b, ¬(a = i ∧ b = j) →
          (applyPorousMediumResistance f i j rad mag).u a b = f.u a b
          ∧ (applyPorousMediumResistance f i j rad mag).v a b = f.v a b
          ∧ (applyPorousMediumResistance f i j rad mag).s a b = f.s a b)
      ∧ (applyPorousMediumResistance f i j rad mag).p = f.p
      ∧ (applyPorousMediumResistance f i j rad mag).m = f.m) := by
  constructor
  · exact applyPorousMediumResistance_skip f i j rad mag
  · intro h
    have halpha : radiatorAlpha rad = 1 / max (rad.porosity / rad.resistance) (1/10^10) := by
      have : ¬(rad.resistance = 0 ∧ rad.porosity ≠ 0) := by
        rintro ⟨h0, -⟩
        exact absurd h0 hres.ne'
      simp [radiatorAlpha, this]
    refine ⟨?_, ?_, ?_, ?_, ?_, ?_⟩ <;>
      simp only [applyPorousMediumResistance, if_neg h, radiatorDamping, halpha,
        radiatorBeta] <;> try intros
    · rw [upd_same]
      ring
    · rw [upd_same]
      ring
    · rw [upd_same]
    all_goals simp_all [upd_ne]

/-- Witness for C6: the cell `(2, 2)` of `exFluidC6` carries velocity
`(3/1000, 4/1000)` of exact magnitude `5/1000`, above the threshold; the
radiator `exRadC6` has positive resistance, and the application scales the
velocity by the predicted damping factor and sets the openness to the
porosity. -/
theorem radiator_resistance_cell_correct_witness :
    0 ≤ (5/1000 : ℚ)
    ∧ (5/1000 : ℚ)^2 = (exFluidC6.u 2 2)^2 + (exFluidC6.v 2 2)^2
    ∧ 0 < exRadC6.resistance
    ∧ ¬ (5/1000 : ℚ) < 1/1000000
    ∧ (applyPorousMediumResistance exFluidC6 2 2 exRadC6 (5/1000)).u 2 2
        = exFluidC6.u 2 2 * (1 / (1 + ((1 / max (exRadC6.porosity / exRadC6.resistance) (1/10^10))
            * (18/1000000) + (7/4) * (1 - exRadC6.porosity) / exRadC6.porosity^3
            * exFluidC6.density * (5/1000)) * exFluidC6.h))
    ∧ (applyPorousMediumResistance exFluidC6 2 2 exRadC6 (5/1000)).s 2 2 = exRadC6.porosity := by
  have hm0 : 0 ≤ (5/1000 : ℚ) := by norm_num
  have hmsq : (5/1000 : ℚ)^2 = (exFluidC6.u 2 2)^2 + (exFluidC6.v 2 2)^2 := by
    norm_num [exFluidC6]
  have hres : 0 < exRadC6.resistance := by norm_num [exRadC6]
  have hlt : ¬ (5/1000 : ℚ) < 1/1000000 := by norm_num
  have h := (radiator_resistance_cell_correct exFluidC6 2 2 exRadC6 (5/1000)
    hm0 hmsq hres).2 hlt
  exact ⟨hm0, hmsq, hres, hlt, h.1, h.2.2.1⟩

/-- C10: for a radiator with porosity in `(0, 1]` and nonnegative
resistance, the damping factor lies in `(0, 1]`, so the resistance
application never increases the absolute value of either velocity component
at any cell, and a cell whose velocity magnitude is below `1e-6` is left
exactly unchanged. -/
theorem radiator_damping_in_unit_interval (f : Fluid) (i j : ℕ) (rad : Radiator) (mag : ℚ)
    (hpor0 : 0 < rad.porosity) (hpor1 : rad.porosity ≤ 1) (_hres : 0 ≤ rad.resistance)
    (hden : 0 ≤ f.density) (hh : 0 ≤ f.h) (hmag0 : 0 ≤ mag) :
    (0 < radiatorDamping rad f.density f.h mag ∧ radiatorDamping rad f.density f.h mag ≤ 1)
    ∧ (∀ a b, |(applyPorousMediumResistance f i j rad mag).u a b| ≤ |f.u a b|
        ∧ |(applyPorousMediumResistance f i j rad mag).v a b| ≤ |f.v a b|)
    ∧ (mag < 1/1000000 → applyPorousMediumResistance f i j rad mag = f) := by
  have halpha : 0 ≤ radiatorAlpha rad := by
    unfold radiatorAlpha
    split
    · exact le_refl 0
    · have hmaxpos : (0:ℚ) < max (rad.porosity / rad.resistance) (1/10^10) :=
        lt_of_lt_of_le (by norm_num) (le_max_right _ _)
      exact (one_div_pos.mpr hmaxpos).le
  have hbeta : 0 ≤ radiatorBeta rad := by
    unfold radiatorBeta
    have : (0:ℚ) ≤ (1 - rad.porosity) / rad.porosity^3 :=
      div_nonneg (by linarith) (by positivity)
    nlinarith
  have hRnn : 0 ≤ radiatorAlpha rad * (18/1000000) + radiatorBeta rad * f.density * mag :=
    add_nonneg (mul_nonneg halpha (by norm_num)) (mul_nonneg (mul_nonneg hbeta hden) hmag0)
  have h1R : (1:ℚ) ≤ 1 + (radiatorAlpha rad * (18/1000000)
      + radiatorBeta rad * f.density * mag) * f.h := by nlinarith
  have hdpos : 0 < radiatorDamping rad f.density f.h mag := by
    unfold radiatorDamping
    exact one_div_pos.mpr (by linarith)
  have hdle : radiatorDamping rad f.density f.h mag ≤ 1 := by
    unfold radiatorDamping
    rw [div_le_one (by linarith)]
    exact h1R
  refine ⟨⟨hdpos, hdle⟩, fun a b => ?_,
    fun hlt => applyPorousMediumResistance_skip f i j rad mag hlt⟩
  by_cases hlt : mag < 1/1000000
  · rw [applyPorousMediumResistance_skip f i j rad mag hlt]
    exact ⟨le_refl _, le_refl _⟩
  · simp only [applyPorousMediumResistance, if_neg hlt]
    by_cases hab : a = i ∧ b = j
    · obtain ⟨rfl, rfl⟩ := hab
      constructor
      · rw [upd_same, abs_mul, abs_of_pos hdpos]
        exact mul_le_of_le_one_right (abs_nonneg _) hdle
      · rw [upd_same, abs_mul, abs_of_pos hdpos]
        exact mul_le_of_le_one_right (abs_nonneg _) hdle
    · rw [upd_ne _ _ _ _ _ _ hab, upd_ne _ _ _ _ _ _ hab]
      exact ⟨le_refl _, le_refl _⟩

/-- Witness for C10: the radiator `exRadC10` (porosity `9/10`, zero
resistance, hence the infinite-permeability branch) damps the velocity at
cell `(1, 1)` of `exFluidC10` without increasing its absolute value. -/
theorem radiator_damping_in_unit_interval_witness :
    0 < exRadC10.porosity ∧ exRadC10.porosity ≤ 1 ∧ 0 ≤ exRadC10.resistance
    ∧ 0 ≤ exFluidC10.density ∧ 0 ≤ exFluidC10.h ∧ 0 ≤ (5/100 : ℚ)
    ∧ 0 < radiatorDamping exRadC10 exFluidC10.density exFluidC10.h (5/100)
    ∧ radiatorDamping exRadC10 exFluidC10.density exFluidC10.h (5/100) ≤ 1
    ∧ |(applyPorousMediumResistance exFluidC10 1 1 exRadC10 (5/100)).v 1 1|
        ≤ |exFluidC10.v 1 1| := by
  have h1 : 0 < exRadC10.porosity := by norm_num [exRadC10]
  have h2 : exRadC10.porosity ≤ 1 := by norm_num [exRadC10]
  have h3 : 0 ≤ exRadC10.resistance := by norm_num [exRadC10]
  have h4 : 0 ≤ exFluidC10.density := by norm_num [exFluidC10]
  have h5 : 0 ≤ exFluidC10.h := by norm_num [exFluidC10]
  have h6 : 0 ≤ (5/100 : ℚ) := by norm_num
  have h := radiator_damping_in_unit_interval exFluidC10 1 1 exRadC10 (5/100)
    h1 h2 h3 h4 h5 h6
  exact ⟨h1, h2, h3, h4, h5, h6, h.1.1, h.1.2, (h.2.1 1 1).2⟩

theorem upd_two_rows_apply (g : ℕ → ℕ → ℚ) (i r1 r2 : ℕ) (k : ℚ) (a b : ℕ) :
    upd (upd g i r1 k) i r2 k a b = if a = i ∧ (b = r1 ∨ b = r2) then k else g a b := by
  simp only [upd]
  split_ifs <;> tauto

theorem foldl_write_two_rows (l : List ℕ) (r1 r2 : ℕ) (k : ℚ) (g0 : ℕ → ℕ → ℚ) (a b : ℕ) :
    (l.foldl (fun g i => upd (upd g i r1 k) i r2 k) g0) a b
      = if a ∈ l ∧ (b = r1 ∨ b = r2) then k else g0 a b := by
  induction l generalizing g0 with
  | nil => simp
  | cons i0 t ih =>
    simp only [List.foldl_cons, ih, List.mem_cons, upd_two_rows_apply]
    by_cases hR : b = r1 ∨ b = r2 <;> by_cases ht : a ∈ t <;> by_cases hi : a = i0 <;>
      simp [hR, ht, hi]

theorem upd_two_cols_apply (g : ℕ → ℕ → ℚ) (c1 c2 j : ℕ) (k : ℚ) (a b : ℕ) :
    upd (upd g c1 j k) c2 j k a b = if (a = c1 ∨ a = c2) ∧ b = j then k else g a b := by
  simp only [upd]
  split_ifs <;> tauto

theorem foldl_write_two_cols (l : List ℕ) (c1 c2 : ℕ) (k : ℚ) (g0 : ℕ → ℕ → ℚ) (a b : ℕ) :
    (l.foldl (fun g j => upd (upd g c1 j k) c2 j k) g0) a b
      = if (a = c1 ∨ a = c2) ∧ b ∈ l then k else g0 a b := by
  induction l generalizing g0 with
  | nil => simp
  | cons j0 t ih =>
    simp only [List.foldl_cons, ih, List.mem_cons, upd_two_cols_apply]
    by_cases hC : a = c1 ∨ a = c2 <;> by_cases ht : b ∈ t <;> by_cases hj : b = j0 <;>
      simp [hC, ht, hj]

theorem foldl_copy_col (l : List ℕ) (x1 x2 : ℕ) (hne : x2 ≠ x1) (g0 : ℕ → ℕ → ℚ) (a b : ℕ) :
    (l.foldl (fun g j => upd g x1 j (g x2 j)) g0) a b
      = if a = x1 ∧ b ∈ l then g0 x2 b else g0 a b := by
  induction l generalizing g0 with
  | nil => simp
  | cons j0 t ih =>
    simp only [List.foldl_cons, ih, List.mem_cons]
    have hx2 : ∀ b', (upd g0 x1 j0 (g0 x2 j0)) x2 b' = g0 x2 b' := fun b' =>
      upd_ne _ _ _ _ _ _ (by tauto)
    by_cases hmem : a = x1 ∧ b ∈ t
    · simp only [if_pos hmem, hx2]
      have : a = x1 ∧ (b = j0 ∨ b ∈ t) := ⟨hmem.1, Or.inr hmem.2⟩
      simp [this]
    · by_cases hb : a = x1 ∧ b = j0
      · obtain ⟨rfl, rfl⟩ := hb
        simp only [if_neg hmem, upd_same]
        simp [hx2]
      · have : ¬(a = x1 ∧ (b = j0 ∨ b ∈ t)) := by tauto
        simp [hmem, this, upd_ne _ _ _ _ _ _ hb]

/-- C7 (amended): `enforce_boundary_conditions` re-imposes no-slip on the
wall rows themselves — after it runs, every velocity value stored on the
bottom row (`u[i,0]`, `v[i,0]`) and on the top row (`u[i,num_y-1]`,
`v[i,num_y-1]`) equals zero.  The full claimed invariant, that every face
adjoining a zero-openness cell vanishes, does not hold: the face
`v[i,1]` on the interior side of a solid bottom-wall cell is not touched by
enforcement, and the wind-tunnel setup deliberately stores a nonzero
suction velocity there (see the counterexample). -/
theorem enforce_no_slip_on_walls (f : Fluid) (iv : ℚ)
    (hx : 2 ≤ f.numX) (_hy : 2 ≤ f.numY) :
    ∀ i, i < f.numX →
      (enforceBoundaryConditions f iv).u i 0 = 0
      ∧ (enforceBoundaryConditions f iv).v i 0 = 0
      ∧ (enforceBoundaryConditions f iv).u i (f.numY - 1) = 0
      ∧ (enforceBoundaryConditions f iv).v i (f.numY - 1) = 0 := by
  intro i hi
  have hcopy : f.numX - 2 ≠ f.numX - 1 := by omega
  have hsub : f.numX - 2 < f.numX := by omega
  refine ⟨?_, ?_, ?_, ?_⟩ <;>
    simp only [enforceBoundaryConditions, foldl_copy_col _ _ _ hcopy,
      foldl_write_two_rows, List.mem_range] <;>
    split_ifs <;> simp_all

/-- Counterexample for C7 as stated: in the wind-tunnel state `exFluidC7`
(top and bottom rows have openness zero, suction value `1/10` on the
vertical faces one row above the bottom wall, as `setup_wind_tunnel`
writes), immediately after boundary enforcement the bottom-wall cell
`(2, 0)` still has openness zero while its adjoining face `v[2, 1]` is
`1/10`, not zero. -/
theorem no_slip_invariant_counterexample :
    (enforceBoundaryConditions exFluidC7 5).s 2 0 = 0
    ∧ (enforceBoundaryConditions exFluidC7 5).v 2 1 ≠ 0 := by
  constructor
  · norm_num [enforceBoundaryConditions, exFluidC7]
  · have hcopy : exFluidC7.numX - 2 ≠ exFluidC7.numX - 1 := by norm_num [exFluidC7]
    simp only [enforceBoundaryConditions, foldl_copy_col _ _ _ hcopy,
      foldl_write_two_rows, List.mem_range]
    norm_num [exFluidC7]

/-- Witness for C7 (amended): on `exFluidC7`, enforcement zeroes all four
wall-row velocity entries in column `3`. -/
theorem enforce_no_slip_on_walls_witness :
    2 ≤ exFluidC7.numX ∧ 2 ≤ exFluidC7.numY ∧ (3 : ℕ) < exFluidC7.numX
    ∧ (enforceBoundaryConditions exFluidC7 5).u 3 0 = 0
    ∧ (enforceBoundaryConditions exFluidC7 5).v 3 0 = 0
    ∧ (enforceBoundaryConditions exFluidC7 5).u 3 (exFluidC7.numY - 1) = 0
    ∧ (enforceBoundaryConditions exFluidC7 5).v 3 (exFluidC7.numY - 1) = 0 := by
  have hx : 2 ≤ exFluidC7.numX := by norm_num [exFluidC7]
  have hy : 2 ≤ exFluidC7.numY := by norm_num [exFluidC7]
  have hi : (3 : ℕ) < exFluidC7.numX := by norm_num [exFluidC7]
  have h := enforce_no_slip_on_walls exFluidC7 5 hx hy 3 hi
  exact ⟨hx, hy, hi, h.1, h.2.1, h.2.2.1, h.2.2.2⟩

/-- C8: `advect_velocity` computes every committed face value from the
pre-advection state only.  For every index `(a, b)`: if the face was
visited (`1 <= a < num_x`, `1 <= b < num_y`) and satisfies the validity
guard (both adjoining cells open, not at the extreme boundary), the
committed value is the bilinear sample of the pre-advection field at the
position traced back by `dt` along the face's own velocity and the locally
averaged transverse velocity; every other face keeps its prior value.  In
particular no sample ever reads a value written in the same sweep: all
reads on the right-hand side are from the unmodified input state `f`.
Within a step, velocity advection precedes scalar advection, as the final
conjunct's pipeline equality shows. -/
theorem advect_velocity_semi_lagrangian (f : Fluid) (dt : ℚ) :
    (∀ a b : ℕ,
      (advectVelocity f dt).u a b
        = if ((1 ≤ a ∧ a < f.numX) ∧ (1 ≤ b ∧ b < f.numY)) ∧ advectCondU f (a, b)
          then sampleField f ((a:ℚ) * f.h - dt * f.u a b)
                 ((b:ℚ) * f.h + (1:ℚ)/2 * f.h - dt * avgV f a b) FieldType.U
          else f.u a b)
  ∧ (∀ a b : ℕ,
      (advectVelocity f dt).v a b
        = if ((1 ≤ a ∧ a < f.numX) ∧ (1 ≤ b ∧ b < f.numY)) ∧ advectCondV f (a, b)
          then sampleField f ((a:ℚ) * f.h + (1:ℚ)/2 * f.h - dt * avgU f a b)
                 ((b:ℚ) * f.h - dt * f.v a b) FieldType.V
          else f.v a b)
  ∧ (∀ (gravity : ℚ) (numIters : ℕ) (overRelaxation inflowVelocity : ℚ),
      simulateWithBoundaries f dt gravity numIters overRelaxation inflowVelocity
        = enforceBoundaryConditions
            (advectSmoke
              (advectVelocity
                (extrapolate
                  (solveIncompressibility { integrate f dt gravity with p := fun _ _ => 0 }
                    numIters dt overRelaxation)) dt) dt) inflowVelocity) := by
  refine ⟨fun a b => ?_, fun a b => ?_, fun _ _ _ _ => rfl⟩
  · simp only [advectVelocity]
    rw [foldl_guard_upd (advectCondU f) (advectValU f dt)]
    refine if_congr ?_ rfl rfl
    rw [mem_pairRange]
    exact and_congr_left' (by omega)
  · simp only [advectVelocity]
    rw [foldl_guard_upd (advectCondV f) (advectValV f dt)]
    refine if_congr ?_ rfl rfl
    rw [mem_pairRange]
    exact and_congr_left' (by omega)

theorem foldl_add_mono (g : ℕ → ℚ) (l : List ℕ) {c d : ℚ} (h : c ≤ d) :
    l.foldl (fun a i => a + g i) c ≤ l.foldl (fun a i => a + g i) d := by
  induction l generalizing c d with
  | nil => exact h
  | cons i t ih => exact ih (add_le_add_right h _)

theorem abs_foldl_add_le (g : ℕ → ℚ) (l : List ℕ) (c : ℚ) :
    |l.foldl (fun a i => a + g i) c| ≤ l.foldl (fun a i => a + |g i|) |c| := by
  induction l generalizing c with
  | nil => exact le_refl _
  | cons i t ih =>
    calc |List.foldl (fun a i => a + g i) (c + g i) t|
        ≤ List.foldl (fun a i => a + |g i|) |c + g i| t := ih _
      _ ≤ List.foldl (fun a i => a + |g i|) (|c| + |g i|) t :=
          foldl_add_mono _ t (abs_add c (g i))

/-- C9 (amended): `calculate_mass_flow` samples velocity at 20 points along
the radiator face, skips points outside the physical domain, projects each
kept sample onto the face normal and weights it by the per-sample area and
density — but it returns the absolute value of the *signed* sum of these
contributions, not the sum of their magnitudes.  The result is therefore
still nonnegative, and is bounded above by the sum of magnitudes the spec
describes. -/
theorem mass_flow_is_abs_of_signed_sum (f : Fluid) (rad : Radiator) :
    calculateMassFlow f rad = |massFlowSignedTotal f rad|
    ∧ 0 ≤ calculateMassFlow f rad
    ∧ calculateMassFlow f rad ≤ specMassFlowSumOfMagnitudes f rad := by
  refine ⟨rfl, abs_nonneg _, ?_⟩
  show |massFlowSignedTotal f rad| ≤ _
  unfold massFlowSignedTotal specMassFlowSumOfMagnitudes
  have h := abs_foldl_add_le (massFlowContribution f rad) (List.range 20) 0
  simpa using h

/-- Counterexample for C9 as stated: on `exFluidC9` with the rotated
radiator `exRadC9`, the four in-domain face samples contribute
`-1, 0, 1, 1`, so the code returns `|1| = 1` while the sum of magnitudes is
`3`. -/
theorem mass_flow_sum_of_magnitudes_counterexample :
    calculateMassFlow exFluidC9 exRadC9 ≠ specMassFlowSumOfMagnitudes exFluidC9 exRadC9 := by
  have hr : List.range 20 = [0,1,2,3,4,5,6,7,8,9,10,11,12,13,14,15,16,17,18,19] := rfl
  norm_num [calculateMassFlow, massFlowSignedTotal, specMassFlowSumOfMagnitudes, hr,
    massFlowContribution, exFluidC9, exRadC9, sampleField, clampQ, axisInterp, fieldOffsets,
    min_def, max_def]
  norm_num [show Int.toNat 2 = 2 from rfl]

/-- C4 (amended): applying a porous obstacle with porosity one leaves the
dye field unchanged, sets the openness of every marked cell to one (a
change only where the prior openness differed from one) and leaves every
velocity face's value unchanged in the marking pass — but the subsequent
no-slip pass still zeroes exactly those faces in its range that adjoin a
zero-openness cell or lie geometrically inside the obstacle.  The claimed
footprint no-op therefore fails for faces geometrically inside the
obstacle (see the counterexample); all other faces retain their exact
prior values.  Proved for an arbitrary containment predicate, covering
every obstacle shape. -/
theorem porosity_one_obstacle_characterization (inside : ℚ → ℚ → Bool) (A : Arrays)
    (numX numY : ℕ) (h : ℚ) :
    ((applyPasses inside true 1 A numX numY h).m = A.m)
    ∧ (∀ a b, (applyPasses inside true 1 A numX numY h).s a b
        = if (a, b) ∈ markCells numX numY ∧ cellMarked inside h (a, b) then 1 else A.s a b)
    ∧ (∀ a b, (applyPasses inside true 1 A numX numY h).u a b
        = if (a, b) ∈ slipFaces numX numY
            ∧ noSlipCondU inside (applyPasses inside true 1 A numX numY h).s numX h (a, b)
          then 0 else A.u a b)
    ∧ (∀ a b, (applyPasses inside true 1 A numX numY h).v a b
        = if (a, b) ∈ slipFaces numX numY
            ∧ noSlipCondV inside (applyPasses inside true 1 A numX numY h).s numY h (a, b)
          then 0 else A.v a b) := by
  have hstepU : ∀ (g : ℕ → ℕ → ℚ) (c : ℕ × ℕ),
      (if cellMarked inside h c then
        let ga := upd g c.1 c.2 (g c.1 c.2 * 1)
        upd ga (c.1 + 1) c.2 (ga (c.1 + 1) c.2 * 1)
      else g) = g := by
    intro g c
    split
    · simp [mul_one, upd_self]
    · rfl
  have hstepV : ∀ (g : ℕ → ℕ → ℚ) (c : ℕ × ℕ),
      (if cellMarked inside h c then
        let ga := upd g c.1 c.2 (g c.1 c.2 * 1)
        upd ga c.1 (c.2 + 1) (ga c.1 (c.2 + 1) * 1)
      else g) = g := by
    intro g c
    split
    · simp [mul_one, upd_self]
    · rfl
  have hu1 : (List.foldl (fun g (c : ℕ × ℕ) => if cellMarked inside h c then
      let ga := upd g c.1 c.2 (g c.1 c.2 * 1)
      upd ga (c.1 + 1) c.2 (ga (c.1 + 1) c.2 * 1) else g) A.u (markCells numX numY)) = A.u := by
    rw [foldl_congr_fun _ (fun g _ => g) _ _ (fun g c => hstepU g c), foldl_id]
  have hv1 : (List.foldl (fun g (c : ℕ × ℕ) => if cellMarked inside h c then
      let ga := upd g c.1 c.2 (g c.1 c.2 * 1)
      upd ga c.1 (c.2 + 1) (ga c.1 (c.2 + 1) * 1) else g) A.v (markCells numX numY)) = A.v := by
    rw [foldl_congr_fun _ (fun g _ => g) _ _ (fun g c => hstepV g c), foldl_id]
  refine ⟨rfl, fun a b => ?_, fun a b => ?_, fun a b => ?_⟩
  · show (List.foldl (fun g (c : ℕ × ℕ) => if cellMarked inside h c then upd g c.1 c.2 1 else g)
      A.s (markCells numX numY)) a b = _
    rw [foldl_guard_upd]
  · show (List.foldl (fun g (c : ℕ × ℕ) =>
        if noSlipCondU inside
            (List.foldl (fun g (c : ℕ × ℕ) => if cellMarked inside h c then upd g c.1 c.2 1 else g)
              A.s (markCells numX numY)) numX h c
        then upd g c.1 c.2 0 else g)
      (List.foldl (fun g (c : ℕ × ℕ) => if cellMarked inside h c then
        let ga := upd g c.1 c.2 (g c.1 c.2 * 1)
        upd ga (c.1 + 1) c.2 (ga (c.1 + 1) c.2 * 1) else g) A.u (markCells numX numY))
      (slipFaces numX numY)) a b = _
    rw [hu1, foldl_guard_upd]
    rfl
  · show (List.foldl (fun g (c : ℕ × ℕ) =>
        if noSlipCondV inside
            (List.foldl (fun g (c : ℕ × ℕ) => if cellMarked inside h c then upd g c.1 c.2 1 else g)
              A.s (markCells numX numY)) numY h c
        then upd g c.1 c.2 0 else g)
      (List.foldl (fun g (c : ℕ × ℕ) => if cellMarked inside h c then
        let ga := upd g c.1 c.2 (g c.1 c.2 * 1)
        upd ga c.1 (c.2 + 1) (ga c.1 (c.2 + 1) * 1) else g) A.v (markCells numX numY))
      (slipFaces numX numY)) a b = _
    rw [hv1, foldl_guard_upd]
    rfl

set_option maxHeartbeats 1000000 in
/-- Counterexample for C4 as stated: the porosity-one porous rectangle
`exObC4` covers cell `(1, 1)` of a uniform unit-velocity field; its
application zeroes the `u` face at `(1, 1)`, which lies geometrically
inside the obstacle, so the velocity magnitude within the footprint is
changed. -/
theorem porosity_one_no_op_counterexample :
    (applyToFluid [exObC4] exArrC4 5 5 1).u 1 1 ≠ exArrC4.u 1 1 := by
  have hm : markCells 5 5 = [(1,1),(1,2),(2,1),(2,2)] := rfl
  have hf : slipFaces 5 5 = [(1,1),(1,2),(1,3),(2,1),(2,2),(2,3),(3,1),(3,2),(3,3)] := rfl
  have ha1 : |(1:ℚ)/2| = 1/2 := abs_of_nonneg (by norm_num)
  have ha2 : |(3:ℚ)/2| = 3/2 := abs_of_nonneg (by norm_num)
  have ha3 : |(1:ℚ)| = 1 := abs_of_nonneg (by norm_num)
  have ha4 : |(2:ℚ)| = 2 := abs_of_nonneg (by norm_num)
  norm_num [applyToFluid, applySingleObstacle, applyPasses, exObC4, exArrC4, hm, hf,
    cellMarked, containsPoint, noSlipCondU, upd, ha1, ha2, ha3, ha4]

/-- C5 (amended): for every obstacle geometry (arbitrary containment
predicate) and every starting state, a porous obstacle with porosity zero
produces exactly the same openness and velocity fields as the same-geometry
non-porous solid obstacle — but not the same dye field: the solid obstacle
zeroes the dye at every marked cell while the porous one leaves the dye
untouched (see the counterexample). -/
theorem porosity_zero_matches_solid (inside : ℚ → ℚ → Bool) (A : Arrays)
    (numX numY : ℕ) (h : ℚ) :
    (∀ a b, (applyPasses inside true 0 A numX numY h).s a b
        = (applyPasses inside false 0 A numX numY h).s a b)
    ∧ (∀ a b, (applyPasses inside true 0 A numX numY h).u a b
        = (applyPasses inside false 0 A numX numY h).u a b)
    ∧ (∀ a b, (applyPasses inside true 0 A numX numY h).v a b
        = (applyPasses inside false 0 A numX numY h).v a b)
    ∧ ((applyPasses inside true 0 A numX numY h).m = A.m)
    ∧ (∀ a b, (applyPasses inside false 0 A numX numY h).m a b
        = if (a, b) ∈ markCells numX numY ∧ cellMarked inside h (a, b) then 0 else A.m a b) := by
  have hs1 : ∀ a b, (List.foldl (fun g (c : ℕ × ℕ) =>
      if cellMarked inside h c then upd g c.1 c.2 0 else g) A.s (markCells numX numY)) a b
      = if (a, b) ∈ markCells numX numY ∧ cellMarked inside h (a, b) then 0 else A.s a b := by
    intro a b
    rw [foldl_guard_upd]
  have hcongU : ∀ (g : ℕ → ℕ → ℚ) (c : ℕ × ℕ),
      (if cellMarked inside h c then
        let ga := upd g c.1 c.2 (g c.1 c.2 * 0)
        upd ga (c.1 + 1) c.2 (ga (c.1 + 1) c.2 * 0)
      else g)
      = (if cellMarked inside h c then writeK g [(c.1, c.2), (c.1 + 1, c.2)] 0 else g) := by
    intro g c
    split
    · simp [writeK, mul_zero]
    · rfl
  have hcongV : ∀ (g : ℕ → ℕ → ℚ) (c : ℕ × ℕ),
      (if cellMarked inside h c then
        let ga := upd g c.1 c.2 (g c.1 c.2 * 0)
        upd ga c.1 (c.2 + 1) (ga c.1 (c.2 + 1) * 0)
      else g)
      = (if cellMarked inside h c then writeK g [(c.1, c.2), (c.1, c.2 + 1)] 0 else g) := by
    intro g c
    split
    · simp [writeK, mul_zero]
    · rfl
  have hZu : ∀ a b : ℕ,
      (∃ c ∈ markCells numX numY, cellMarked inside h c
        ∧ (a, b) ∈ ([(c.1, c.2), (c.1 + 1, c.2)] : List (ℕ × ℕ)))
      → ((a, b) ∈ slipFaces numX numY
        ∧ noSlipCondU inside
            (List.foldl (fun g (c : ℕ × ℕ) =>
              if cellMarked inside h c then upd g c.1 c.2 0 else g) A.s (markCells numX numY))
            numX h (a, b)) := by
    rintro a b ⟨⟨i, j⟩, hc, hm, hab⟩
    have hmem := (mem_pairRange 1 (numX-3) 1 (numY-3) i j).1 (by simpa [markCells] using hc)
    have hszero : (List.foldl (fun g (c : ℕ × ℕ) =>
        if cellMarked inside h c then upd g c.1 c.2 0 else g) A.s (markCells numX numY)) i j
        = 0 := by
      rw [hs1 i j, if_pos ⟨hc, hm⟩]
    simp only [List.mem_cons, List.not_mem_nil, or_false] at hab
    rcases hab with hab | hab
    · have ha : a = i := congrArg Prod.fst hab
      have hb : b = j := congrArg Prod.snd hab
      subst ha hb
      constructor
      · rw [slipFaces, mem_pairRange]
        omega
      · exact Or.inr (Or.inl ⟨by omega, hszero⟩)
    · have ha : a = i + 1 := congrArg Prod.fst hab
      have hb : b = j := congrArg Prod.snd hab
      subst ha hb
      constructor
      · rw [slipFaces, mem_pairRange]
        omega
      · refine Or.inl ⟨by omega, ?_⟩
        simpa using hszero
  have hZv : ∀ a b : ℕ,
      (∃ c ∈ markCells numX numY, cellMarked inside h c
        ∧ (a, b) ∈ ([(c.1, c.2), (c.1, c.2 + 1)] : List (ℕ × ℕ)))
      → ((a, b) ∈ slipFaces numX numY
        ∧ noSlipCondV inside
            (List.foldl (fun g (c : ℕ × ℕ) =>
              if cellMarked inside h c then upd g c.1 c.2 0 else g) A.s (markCells numX numY))
            numY h (a, b)) := by
    rintro a b ⟨⟨i, j⟩, hc, hm, hab⟩
    have hmem := (mem_pairRange 1 (numX-3) 1 (numY-3) i j).1 (by simpa [markCells] using hc)
    have hszero : (List.foldl (fun g (c : ℕ × ℕ) =>
        if cellMarked inside h c then upd g c.1 c.2 0 else g) A.s (markCells numX numY)) i j
        = 0 := by
      rw [hs1 i j, if_pos ⟨hc, hm⟩]
    simp only [List.mem_cons, List.not_mem_nil, or_false] at hab
    rcases hab with hab | hab
    · have ha : a = i := congrArg Prod.fst hab
      have hb : b = j := congrArg Prod.snd hab
      subst ha hb
      constructor
      · rw [slipFaces, mem_pairRange]
        omega
      · exact Or.inr (Or.inl ⟨by omega, hszero⟩)
    · have ha : a = i := congrArg Prod.fst hab
      have hb : b = j + 1 := congrArg Prod.snd hab
      subst ha hb
      constructor
      · rw [slipFaces, mem_pairRange]
        omega
      · refine Or.inl ⟨by omega, ?_⟩
        simpa using hszero
  have hu1p : (List.foldl (fun g (c : ℕ × ℕ) => if cellMarked inside h c then
        let ga := upd g c.1 c.2 (g c.1 c.2 * 0)
        upd ga (c.1 + 1) c.2 (ga (c.1 + 1) c.2 * 0) else g) A.u (markCells numX numY))
      = (List.foldl (fun g (c : ℕ × ℕ) =>
          if cellMarked inside h c then writeK g [(c.1, c.2), (c.1 + 1, c.2)] 0 else g)
        A.u (markCells numX numY)) :=
    foldl_congr_fun _ _ _ _ hcongU
  have hv1p : (List.foldl (fun g (c : ℕ × ℕ) => if cellMarked inside h c then
        let ga := upd g c.1 c.2 (g c.1 c.2 * 0)
        upd ga c.1 (c.2 + 1) (ga c.1 (c.2 + 1) * 0) else g) A.v (markCells numX numY))
      = (List.foldl (fun g (c : ℕ × ℕ) =>
          if cellMarked inside h c then writeK g [(c.1, c.2), (c.1, c.2 + 1)] 0 else g)
        A.v (markCells numX numY)) :=
    foldl_congr_fun _ _ _ _ hcongV
  refine ⟨fun a b => rfl, fun a b => ?_, fun a b => ?_, rfl, fun a b => ?_⟩
  · show (List.foldl (fun g (c : ℕ × ℕ) =>
        if noSlipCondU inside
            (List.foldl (fun g (c : ℕ × ℕ) => if cellMarked inside h c then upd g c.1 c.2 0 else g)
              A.s (markCells numX numY)) numX h c
        then upd g c.1 c.2 0 else g)
      (List.foldl (fun g (c : ℕ × ℕ) => if cellMarked inside h c then
        let ga := upd g c.1 c.2 (g c.1 c.2 * 0)
        upd ga (c.1 + 1) c.2 (ga (c.1 + 1) c.2 * 0) else g) A.u (markCells numX numY))
      (slipFaces numX numY)) a b
      = (List.foldl (fun g (c : ℕ × ℕ) =>
        if noSlipCondU inside
            (List.foldl (fun g (c : ℕ × ℕ) => if cellMarked inside h c then upd g c.1 c.2 0 else g)
              A.s (markCells numX numY)) numX h c
        then upd g c.1 c.2 0 else g) A.u (slipFaces numX numY)) a b
    rw [hu1p]
    rw [foldl_guard_upd, foldl_guard_upd, foldl_guard_writeK]
    by_cases hcond : (a, b) ∈ slipFaces numX numY
        ∧ noSlipCondU inside
            (List.foldl (fun g (c : ℕ × ℕ) => if cellMarked inside h c then upd g c.1 c.2 0 else g)
              A.s (markCells numX numY)) numX h (a, b)
    · rw [if_pos hcond, if_pos hcond]
    · rw [if_neg hcond, if_neg hcond,
        if_neg (fun hz => hcond (hZu a b hz))]
  · show (List.foldl (fun g (c : ℕ × ℕ) =>
        if noSlipCondV inside
            (List.foldl (fun g (c : ℕ × ℕ) => if cellMarked inside h c then upd g c.1 c.2 0 else g)
              A.s (markCells numX numY)) numY h c
        then upd g c.1 c.2 0 else g)
      (List.foldl (fun g (c : ℕ × ℕ) => if cellMarked inside h c then
        let ga := upd g c.1 c.2 (g c.1 c.2 * 0)
        upd ga c.1 (c.2 + 1) (ga c.1 (c.2 + 1) * 0) else g) A.v (markCells numX numY))
      (slipFaces numX numY)) a b
      = (List.foldl (fun g (c : ℕ × ℕ) =>
        if noSlipCondV inside
            (List.foldl (fun g (c : ℕ × ℕ) => if cellMarked inside h c then upd g c.1 c.2 0 else g)
              A.s (markCells numX numY)) numY h c
        then upd g c.1 c.2 0 else g) A.v (slipFaces numX numY)) a b
    rw [hv1p]
    rw [foldl_guard_upd, foldl_guard_upd, foldl_guard_writeK]
    by_cases hcond : (a, b) ∈ slipFaces numX numY
        ∧ noSlipCondV inside
            (List.foldl (fun g (c : ℕ × ℕ) => if cellMarked inside h c then upd g c.1 c.2 0 else g)
              A.s (markCells numX numY)) numY h (a, b)
    · rw [if_pos hcond, if_pos hcond]
    · rw [if_neg hcond, if_neg hcond,
        if_neg (fun hz => hcond (hZv a b hz))]
  · show (List.foldl (fun g (c : ℕ × ℕ) => if cellMarked inside h c then upd g c.1 c.2 0 else g)
      A.m (markCells numX numY)) a b = _
    rw [foldl_guard_upd]

/-- Counterexample for C5 as stated: on a dye-carrying state, the
porosity-zero porous obstacle leaves the dye at the marked cell `(1, 1)`
at `1` while the same-geometry solid obstacle zeroes it, so the two final
states differ. -/
theorem porosity_zero_dye_counterexample :
    (applyToFluid [exObC5porous] exArrC5 5 5 1).m 1 1
      ≠ (applyToFluid [exObC5solid] exArrC5 5 5 1).m 1 1 := by
  have hm : markCells 5 5 = [(1,1),(1,2),(2,1),(2,2)] := rfl
  norm_num [applyToFluid, applySingleObstacle, applyPasses, exObC5porous, exObC5solid,
    exArrC5, hm, cellMarked, containsPoint, upd]
